import Mathlib

/-!
Verification development for the dora daemon/coordinator core
(`src/binaries/daemon/src/lib.rs` and `src/binaries/coordinator/src/run/mod.rs`).

The Rust code is shallowly embedded: `HashMap`/`BTreeMap` values become
association lists (or `Option`-valued functions where only point lookups
occur), `HashSet`/`BTreeSet` values become duplicate-free lists, unbounded
mpsc channels become the list of events delivered on them (a send appends),
and the single-threaded event loop becomes a fold of pure step functions
over an event list.  The abstractions taken: channel sends to a registered
receiver always succeed (a send failure in the Rust code corresponds to a
receiver dropped concurrently; receiver removal is modelled by the explicit
`EventStreamDropped`/`stop_all` transitions), metadata and byte payload
contents are carried opaquely, and network I/O to the coordinator is an
external effect that does not change daemon-local state.
-/

/- ## Identifiers (src lib.rs uses interned strings and 128-bit ids) -/

abbrev NodeId := String
abbrev DataId := String
abbrev MachineId := String
abbrev DataflowId := Nat
abbrev DropToken := Nat

/-- `struct OutputId(NodeId, DataId)` (lib.rs line 1169). -/
abbrev OutputId := NodeId × DataId
/-- `type InputId = (NodeId, DataId)` (lib.rs line 1170). -/
abbrev InputId := NodeId × DataId

/- ## Association-list and set-as-list helpers -/

/-- Lookup in an association list (first matching key). -/
def lookupA {α β : Type} [DecidableEq α] : List (α × β) → α → Option β
  | [], _ => none
  | (k, v) :: rest, key => if k = key then some v else lookupA rest key

/-- Overwrite the first binding of `key`, or append a fresh binding. -/
def setA {α β : Type} [DecidableEq α] : List (α × β) → α → β → List (α × β)
  | [], key, val => [(key, val)]
  | (k, v) :: rest, key, val =>
    if k = key then (k, val) :: rest else (k, v) :: setA rest key val

/-- The `entry(key).or_insert_with(dflt)` then mutate-by-`f` pattern. -/
def adjustA {α β : Type} [DecidableEq α] (m : List (α × β)) (key : α) (dflt : β)
    (f : β → β) : List (α × β) :=
  match lookupA m key with
  | some v => setA m key (f v)
  | none => m ++ [(key, f dflt)]

/-- Set insertion for a duplicate-free list (`HashSet::insert`). -/
def insertS {α : Type} [DecidableEq α] (x : α) (l : List α) : List α :=
  if x ∈ l then l else l ++ [x]

/-- Pointwise update of a function-valued map. -/
def updF {α β : Type} [DecidableEq α] (f : α → β) (key : α) (val : β) : α → β :=
  fun x => if x = key then val else f x

/-- Insert/overwrite one binding of an `Option`-valued map. -/
def mapSet {α β : Type} [DecidableEq α] (m : α → Option β) (key : α) (val : β) :
    α → Option β :=
  fun x => if x = key then some val else m x

/-- Remove one binding of an `Option`-valued map. -/
def mapRemove {α β : Type} [DecidableEq α] (m : α → Option β) (key : α) :
    α → Option β :=
  fun x => if x = key then none else m x

/- ## Messages and payloads -/

/-- `daemon_messages::Data`: either an inlined byte vector or a
shared-memory region carrying a drop token. -/
inductive Data
  | vec (bytes : List Nat)
  | sharedMemory (len : Nat) (dropToken : DropToken)
deriving DecidableEq

/-- `Data::drop_token()`: only shared-memory payloads carry a token. -/
def Data.dropTokenOf : Data → Option DropToken
  | .vec _ => none
  | .sharedMemory _ t => some t

/-- `daemon_messages::NodeEvent` delivered on a node's subscribe channel. -/
inductive NodeEvent
  | input (id : DataId) (data : Option Data)
  | inputClosed (id : DataId)
  | allInputsClosed
  | stop
  | reload (operatorId : Option String)
deriving DecidableEq

/-- `daemon_messages::NodeDropEvent` delivered on a node's drop channel. -/
inductive NodeDropEvent
  | outputDropped (dropToken : DropToken)
deriving DecidableEq

/-- `config::InputMapping`: `User(source, output)` or `Timer{interval}`.
Intervals are modelled in integral time units. -/
inductive InputMapping
  | user (source : NodeId) (output : DataId)
  | timer (interval : Nat)
deriving DecidableEq

/-- One operator of a runtime node (inputs and outputs by inner id). -/
structure OperatorConfig where
  id : String
  inputs : List (DataId × InputMapping)
  outputs : List DataId
deriving DecidableEq

/-- `descriptor::CoreNodeKind`. -/
inductive CoreNodeKind
  | custom (inputs : List (DataId × InputMapping)) (outputs : List DataId)
  | runtime (operators : List OperatorConfig)
deriving DecidableEq

/-- `descriptor::ResolvedNode` restricted to the fields the daemon core
reads: node id, deployment machine, and the node kind. -/
structure ResolvedNode where
  id : NodeId
  machine : MachineId
  kind : CoreNodeKind
deriving DecidableEq

/-- `runtime_node_inputs` (lib.rs lines 936-948): inner input ids prefixed
with the operator id. -/
def runtime_node_inputs (ops : List OperatorConfig) : List (DataId × InputMapping) :=
  ops.flatMap (fun op => op.inputs.map (fun p => (op.id ++ "/" ++ p.1, p.2)))

/-- `node_inputs` (lib.rs lines 929-934). -/
def node_inputs (node : ResolvedNode) : List (DataId × InputMapping) :=
  match node.kind with
  | .custom inputs _ => inputs
  | .runtime ops => runtime_node_inputs ops

/-- `DropTokenInformation` (lib.rs lines 1172-1178). -/
structure DropTokenInformation where
  owner : NodeId
  pending_nodes : List NodeId
deriving DecidableEq

/- ## RunningDataflow (lib.rs lines 1026-1076) -/

/-- `RunningDataflow`.  Channels are split into a registration part (the
sender held by the daemon) and the history of events delivered; dropping a
channel removes the registration but the delivered history stays
observable.  `timer_tasks` records the timer emitter tasks spawned by
`start` (one entry per spawned task, mirroring `_timer_handles`), and
`replies_sent` records the answered subscribe replies (the oneshot sends
performed by `start`). -/
structure RunningDataflow where
  id : DataflowId
  pending_nodes : List NodeId
  subscribe_replies : List (NodeId × Except String Unit)
  subscribe_channels : List NodeId
  channels : NodeId → List NodeEvent
  drop_channels : List NodeId
  drop_hist : NodeId → List NodeDropEvent
  mappings : List (OutputId × List InputId)
  timers : List (Nat × List InputId)
  open_inputs : List (NodeId × List DataId)
  running_nodes : List NodeId
  external_nodes : List (NodeId × ResolvedNode)
  open_external_mappings : List (OutputId × List (MachineId × List InputId))
  pending_drop_tokens : DropToken → Option DropTokenInformation
  timer_tasks : List Nat
  replies_sent : List (NodeId × Except String Unit)
  stop_sent : Bool

/-- `RunningDataflow::new` (lib.rs lines 1058-1076). -/
def RunningDataflow.new (id : DataflowId) : RunningDataflow where
  id := id
  pending_nodes := []
  subscribe_replies := []
  subscribe_channels := []
  channels := fun _ => []
  drop_channels := []
  drop_hist := fun _ => []
  mappings := []
  timers := []
  open_inputs := []
  running_nodes := []
  external_nodes := []
  open_external_mappings := []
  pending_drop_tokens := fun _ => none
  timer_tasks := []
  replies_sent := []
  stop_sent := false

/-- Append an event to a node's subscribe-channel history (a successful
`UnboundedSender::send`). -/
def sendEvent (df : RunningDataflow) (n : NodeId) (ev : NodeEvent) : RunningDataflow :=
  { df with channels := updF df.channels n (df.channels n ++ [ev]) }

/-- `RunningDataflow::open_inputs` accessor (lib.rs lines 1134-1136):
a missing entry yields the empty set. -/
def RunningDataflow.open_inputs_of (df : RunningDataflow) (n : NodeId) : List DataId :=
  (lookupA df.open_inputs n).getD []

/-- `RunningDataflow::check_drop_token` (lib.rs lines 1138-1165): if the
token's entry exists and its pending set is empty, remove the entry and
push `OutputDropped` into the owner's drop channel (a missing owner
channel is logged and ignored). -/
def RunningDataflow.check_drop_token (df : RunningDataflow) (token : DropToken) :
    RunningDataflow :=
  match df.pending_drop_tokens token with
  | some info =>
    if info.pending_nodes = [] then
      let df := { df with pending_drop_tokens := mapRemove df.pending_drop_tokens token }
      if info.owner ∈ df.drop_channels then
        let hist := df.drop_hist info.owner ++ [NodeDropEvent.outputDropped token]
        { df with drop_hist := updF df.drop_hist info.owner hist }
      else df
    else df
  | none => df

/-- One receiver of the loop of `send_output_to_local_receivers` (lib.rs
lines 868-894): push an `Input` to the receiver if it still has a
subscribe channel, and for payloads carrying a drop token record the
accepting receiver in the token's pending set (owner = sending node). -/
def deliverStep (src : NodeId) (data : Option Data) (df : RunningDataflow)
    (p : InputId) : RunningDataflow :=
  if p.1 ∈ df.subscribe_channels then
    let dfSent := sendEvent df p.1 (.input p.2 data)
    match data.bind Data.dropTokenOf with
    | some token =>
      let info :=
        match dfSent.pending_drop_tokens token with
        | some info => { info with pending_nodes := insertS p.1 info.pending_nodes }
        | none => { owner := src, pending_nodes := insertS p.1 [] }
      { dfSent with pending_drop_tokens := mapSet dfSent.pending_drop_tokens token info }
    | none => dfSent
  else df

/-- The receiver loop of `send_output_to_local_receivers` (lib.rs lines
863-897). -/
def deliverLoop (src : NodeId) (data : Option Data) :
    List InputId → RunningDataflow → RunningDataflow
  | [], df => df
  | p :: rest, df => deliverLoop src data rest (deliverStep src data df p)

/-- `send_output_to_local_receivers` (lib.rs lines 856-927): deliver to the
local receivers of the mapping, then register the drop token (if any) even
when there are no local subscribers, and run `check_drop_token`.  The
returned byte copy of the payload is an external effect and not part of
the state. -/
def send_output_to_local_receivers (df : RunningDataflow) (node_id : NodeId)
    (output_id : DataId) (data : Option Data) : RunningDataflow :=
  let local_receivers := (lookupA df.mappings (node_id, output_id)).getD []
  let df := deliverLoop node_id data local_receivers df
  match data.bind Data.dropTokenOf with
  | some token =>
    let info :=
      match df.pending_drop_tokens token with
      | some info => info
      | none => { owner := node_id, pending_nodes := [] }
    let df := { df with pending_drop_tokens := mapSet df.pending_drop_tokens token info }
    df.check_drop_token token
  | none => df

/-- The notification half of `close_input` (lib.rs lines 1015-1023): if the
receiver still has a subscribe channel, push `InputClosed` and, when its
open-input set is (now) empty, also `AllInputsClosed`. -/
def closeInputNotify (df : RunningDataflow) (receiver_id : NodeId) (input_id : DataId) :
    RunningDataflow :=
  if receiver_id ∈ df.subscribe_channels then
    let df := sendEvent df receiver_id (.inputClosed input_id)
    if df.open_inputs_of receiver_id = [] then sendEvent df receiver_id .allInputsClosed
    else df
  else df

/-- `close_input` (lib.rs lines 1009-1024).  Note the control flow of the
source: when `open_inputs` has an entry for the receiver and the input is
not in it, the function returns early; when `open_inputs` has NO entry at
all, the guard is skipped and the function falls through to the
notification half without removing anything. -/
def close_input (df : RunningDataflow) (receiver_id : NodeId) (input_id : DataId) :
    RunningDataflow :=
  match lookupA df.open_inputs receiver_id with
  | some open_in =>
    if input_id ∈ open_in then
      closeInputNotify
        { df with open_inputs := setA df.open_inputs receiver_id (open_in.erase input_id) }
        receiver_id input_id
    else df
  | none => closeInputNotify df receiver_id input_id

/-- The closed-input report computed in `Daemon::subscribe` (lib.rs lines
654-667): every input of the node appearing in `mappings` that is not in
the node's open-input set (a missing entry counts every input as closed). -/
def closedInputsFor (df : RunningDataflow) (n : NodeId) : List DataId :=
  (((df.mappings.map Prod.snd).flatten.filter (fun p => decide (p.1 = n))).map Prod.snd).filter
    (fun input =>
      match lookupA df.open_inputs n with
      | some open_in => decide (input ∉ open_in)
      | none => true)

/-- `Daemon::subscribe` (lib.rs lines 644-686), dataflow-local part: create
a fresh channel for the node, report already-closed inputs, report
`AllInputsClosed` when the open set is empty, report `Stop` when
`stop_sent` is latched, and register the channel. -/
def RunningDataflow.subscribeNode (df : RunningDataflow) (n : NodeId) : RunningDataflow :=
  let evs := (closedInputsFor df n).map NodeEvent.inputClosed
  let evs := evs ++ (if df.open_inputs_of n = [] then [NodeEvent.allInputsClosed] else [])
  let evs := evs ++ (if df.stop_sent then [NodeEvent.stop] else [])
  { df with channels := updF df.channels n evs,
            subscribe_channels := insertS n df.subscribe_channels }

/-- `RunningDataflow::start` (lib.rs lines 1078-1125): drain and answer all
pending subscribe replies with their recorded status, then spawn one timer
emitter task per interval key of `timers`. -/
def RunningDataflow.start (df : RunningDataflow) : RunningDataflow :=
  { df with subscribe_replies := [],
            replies_sent := df.replies_sent ++ df.subscribe_replies,
            timer_tasks := df.timer_tasks ++ df.timers.map Prod.fst }

/-- The stop loop of `RunningDataflow::stop_all`. -/
def stopLoop : List NodeId → RunningDataflow → RunningDataflow
  | [], df => df
  | n :: rest, df => stopLoop rest (sendEvent df n .stop)

/-- `RunningDataflow::stop_all` (lib.rs lines 1127-1132): send `Stop` into
every subscriber channel, drop all subscriber channels, latch `stop_sent`. -/
def RunningDataflow.stop_all (df : RunningDataflow) : RunningDataflow :=
  let df2 := stopLoop df.subscribe_channels df
  { df2 with subscribe_channels := [], stop_sent := true }

/-- The subscriber loop of the `DoraEvent::Timer` handler (lib.rs lines
754-774): push an `Input{data=None}` to each subscriber of the interval
that still has a channel. -/
def timerLoop (interval : Nat) : List InputId → RunningDataflow → RunningDataflow
  | [], df => df
  | p :: rest, df =>
    let df' := if p.1 ∈ df.subscribe_channels then sendEvent df p.1 (.input p.2 none) else df
    timerLoop interval rest df'

/-- `DoraEvent::Timer` handler, dataflow-local part (lib.rs lines 740-775). -/
def RunningDataflow.timerFire (df : RunningDataflow) (interval : Nat) : RunningDataflow :=
  match lookupA df.timers interval with
  | none => df
  | some subscribers => timerLoop interval subscribers df

/-- One token of the `ReportDrop` handler (lib.rs lines 542-555): remove
the reporting node from the token's pending set; when the removal
succeeded call `check_drop_token`; an unknown token or a non-pending node
is logged and skipped. -/
def reportDropOne (df : RunningDataflow) (node_id : NodeId) (token : DropToken) :
    RunningDataflow :=
  match df.pending_drop_tokens token with
  | some info =>
    if node_id ∈ info.pending_nodes then
      let info' := { info with pending_nodes := info.pending_nodes.erase node_id }
      let df := { df with pending_drop_tokens := mapSet df.pending_drop_tokens token info' }
      df.check_drop_token token
    else df
  | none => df

/-- `DaemonNodeEvent::ReportDrop` handler, dataflow-local part. -/
def RunningDataflow.report_drop (df : RunningDataflow) (node_id : NodeId)
    (tokens : List DropToken) : RunningDataflow :=
  match tokens with
  | [] => df
  | t :: rest => (reportDropOne df node_id t).report_drop node_id rest

/-- `Daemon::send_reload`, dataflow-local part (lib.rs lines 574-593). -/
def RunningDataflow.send_reload_df (df : RunningDataflow) (node_id : NodeId)
    (operator_id : Option String) : RunningDataflow :=
  if node_id ∈ df.subscribe_channels then sendEvent df node_id (.reload operator_id) else df

/-- The close loop over collected local inputs in `send_input_closed_events`. -/
def closeLoop : List InputId → RunningDataflow → RunningDataflow
  | [], df => df
  | p :: rest, df => closeLoop rest (close_input df p.1 p.2)

/-- `send_input_closed_events` (lib.rs lines 963-1007): close every local
input reachable through a mapping whose key matches the filter, then drain
the matching external mappings (the drained inputs are sent upward in a
coordinator `InputsClosed` message, an external effect). -/
def send_input_closed_events (df : RunningDataflow) (filter : OutputId → Bool) :
    RunningDataflow :=
  let local_node_inputs :=
    (((df.mappings.filter (fun p => filter p.1)).map Prod.snd).flatten).foldl
      (fun acc p => insertS p acc) []
  let df := closeLoop local_node_inputs df
  { df with open_external_mappings :=
      df.open_external_mappings.map (fun p => if filter p.1 then (p.1, []) else p) }

/-- `Daemon::handle_outputs_done`, dataflow-local part (lib.rs lines
688-706): close everything sourced at the node, then remove the node's
drop channel. -/
def RunningDataflow.outputs_done (df : RunningDataflow) (node_id : NodeId) :
    RunningDataflow :=
  let df := send_input_closed_events df (fun p => decide (p.1 = node_id))
  { df with drop_channels := df.drop_channels.erase node_id }

/-- `DaemonNodeEvent::SubscribeDrop` handler, dataflow-local part (lib.rs
lines 487-496): register a fresh drop channel for the node. -/
def RunningDataflow.subscribe_drop (df : RunningDataflow) (node_id : NodeId) :
    RunningDataflow :=
  { df with drop_channels := insertS node_id df.drop_channels,
            drop_hist := updF df.drop_hist node_id [] }

/-- The `DaemonNodeEvent::Subscribe` handler, dataflow-local part (lib.rs
lines 447-486): run `subscribe`, record the reply with its status, remove
the node from `pending_nodes`, and when no local node is pending and there
are no external nodes call `start` (otherwise `AllNodesReady` is sent to
the coordinator, an external effect). -/
def RunningDataflow.handle_subscribe (df : RunningDataflow) (n : NodeId) : RunningDataflow :=
  let df := df.subscribeNode n
  let df := { df with subscribe_replies := setA df.subscribe_replies n (Except.ok ()),
                      pending_nodes := df.pending_nodes.erase n }
  if df.pending_nodes = [] ∧ df.external_nodes = [] then df.start else df

/- ## Dataflow-level operation alphabet

The single-threaded event loop (lib.rs `run_inner`) handles one event at a
time; the operations below are the dataflow-local effects of those events,
so a run of the loop restricted to one dataflow is a fold of `applyOp`. -/

/-- One dataflow-local operation of the daemon event loop. -/
inductive DfOp
  | subscribe (n : NodeId)
  | subscribeDrop (n : NodeId)
  | stopAll
  | timerFire (interval : Nat)
  | closeInput (receiver : NodeId) (input : DataId)
  | sendOut (src : NodeId) (output : DataId) (data : Option Data)
  | reportDrop (n : NodeId) (tokens : List DropToken)
  | outputsDone (n : NodeId)
  | reload (n : NodeId) (operatorId : Option String)
  | eventStreamDropped (n : NodeId)
deriving DecidableEq

/-- Dispatch of one operation to the corresponding handler. -/
def applyOp (df : RunningDataflow) : DfOp → RunningDataflow
  | .subscribe n => df.handle_subscribe n
  | .subscribeDrop n => df.subscribe_drop n
  | .stopAll => df.stop_all
  | .timerFire interval => df.timerFire interval
  | .closeInput r i => close_input df r i
  | .sendOut src output data => send_output_to_local_receivers df src output data
  | .reportDrop n tokens => df.report_drop n tokens
  | .outputsDone n => df.outputs_done n
  | .reload n op => df.send_reload_df n op
  | .eventStreamDropped n =>
    { df with subscribe_channels := df.subscribe_channels.erase n }

/-- Fold a sequence of operations over a dataflow. -/
def runOps (df : RunningDataflow) : List DfOp → RunningDataflow
  | [] => df
  | op :: rest => runOps (applyOp df op) rest

/-- Decidable equality for `Except` results carried in reply messages. -/
instance {ε α : Type} [DecidableEq ε] [DecidableEq α] : DecidableEq (Except ε α) :=
  fun a b =>
    match a, b with
    | .ok x, .ok y =>
      if h : x = y then isTrue (by rw [h]) else isFalse (fun hh => by cases hh; exact h rfl)
    | .ok _, .error _ => isFalse (fun hh => by cases hh)
    | .error _, .ok _ => isFalse (fun hh => by cases hh)
    | .error x, .error y =>
      if h : x = y then isTrue (by rw [h]) else isFalse (fun hh => by cases hh; exact h rfl)

/- ## Daemon (lib.rs lines 46-58) -/

/-- `Daemon`, restricted to the state the claims are about.  The spawn of a
child process (`spawn::spawn_node`, a module not under src/) is abstracted
as an oracle passed to the handlers; `exit_when_done` bookkeeping and the
coordinator TCP connection are external to the dataflow state. -/
structure Daemon where
  running : List (DataflowId × RunningDataflow)
  machine_id : MachineId

/-- `DaemonCoordinatorEvent` (coordinator to daemon push messages). -/
inductive DaemonCoordinatorEvent
  | spawn (dataflow_id : DataflowId) (nodes : List ResolvedNode)
  | allNodesReady (dataflow_id : DataflowId)
  | reloadDataflow (dataflow_id : DataflowId) (node_id : NodeId) (operator_id : Option String)
  | stopDataflow (dataflow_id : DataflowId)
  | destroy
  | watchdog
  | output (dataflow_id : DataflowId) (node_id : NodeId) (output_id : DataId)
      (data : Option (List Nat))
  | inputsClosed (dataflow_id : DataflowId) (inputs : List InputId)
deriving DecidableEq

/-- `DaemonCoordinatorReply`. -/
inductive DaemonCoordinatorReply
  | spawnResult (r : Except String Unit)
  | reloadResult (r : Except String Unit)
  | stopResult (r : Except String Unit)
  | destroyResult (r : Except String Unit)
  | watchdogAck
deriving DecidableEq

/-- `RunStatus` (lib.rs lines 1276-1279). -/
inductive RunStatus
  | Continue
  | Exit
deriving DecidableEq

/-- `DaemonNodeEvent` (lib.rs lines 1200-1227), reply senders omitted. -/
inductive DaemonNodeEvent
  | subscribe
  | subscribeDrop
  | closeOutputs (outputs : List DataId)
  | outputsDone
  | sendOut (output_id : DataId) (data : Option Data)
  | reportDrop (tokens : List DropToken)
  | eventStreamDropped
deriving DecidableEq

/-- The input-registration loop body of `Daemon::spawn_dataflow` (lib.rs
lines 384-417): for a local node populate `open_inputs` plus `mappings` or
`timers`; for a non-local node register every `User` mapping in
`open_external_mappings` under the consumer's machine. -/
def registerNodeInputs (machine_id : MachineId) (df : RunningDataflow)
    (node : ResolvedNode) : RunningDataflow :=
  (node_inputs node).foldl
    (fun df p =>
      if node.machine = machine_id then
        let df := { df with open_inputs := adjustA df.open_inputs node.id [] (insertS p.1) }
        match p.2 with
        | .user source output =>
          { df with mappings := adjustA df.mappings (source, output) [] (insertS (node.id, p.1)) }
        | .timer interval =>
          { df with timers := adjustA df.timers interval [] (insertS (node.id, p.1)) }
      else
        match p.2 with
        | .user source output =>
          let m' := adjustA df.open_external_mappings (source, output) []
            (fun m => adjustA m node.machine [] (insertS (node.id, p.1)))
          { df with open_external_mappings := m' }
        | .timer _ => df)
    df

/-- One node of the `Daemon::spawn_dataflow` loop (lib.rs lines 381-435):
register the node's inputs, then either spawn the local process (recording
it in `pending_nodes` before the attempt and in `running_nodes` on
success) or record the node in `external_nodes`.  The spawn outcome comes
from the `spawnOk` oracle abstracting `spawn::spawn_node`. -/
def processNode (machine_id : MachineId) (spawnOk : ResolvedNode → Bool)
    (df : RunningDataflow) (node : ResolvedNode) : RunningDataflow × Option String :=
  let df := registerNodeInputs machine_id df node
  if node.machine = machine_id then
    let df := { df with pending_nodes := insertS node.id df.pending_nodes }
    if spawnOk node then
      ({ df with running_nodes := insertS node.id df.running_nodes }, none)
    else (df, some ("failed to spawn node " ++ node.id))
  else ({ df with external_nodes := setA df.external_nodes node.id node }, none)

/-- The node loop of `Daemon::spawn_dataflow`: processing stops at the
first spawn failure (the `?` operator), leaving the dataflow partially
populated. -/
def processNodes (machine_id : MachineId) (spawnOk : ResolvedNode → Bool) :
    RunningDataflow → List ResolvedNode → RunningDataflow × Option String
  | df, [] => (df, none)
  | df, node :: rest =>
    match processNode machine_id spawnOk df node with
    | (df, none) => processNodes machine_id spawnOk df rest
    | (df, some e) => (df, some e)

/-- `Daemon::spawn_dataflow` (lib.rs lines 366-438): bail on a duplicate
dataflow id, otherwise insert the fresh `RunningDataflow` into `running`
FIRST and then process the nodes in place; on a node failure the partially
populated dataflow remains registered. -/
def Daemon.spawn_dataflow (d : Daemon) (spawnOk : ResolvedNode → Bool)
    (dataflow_id : DataflowId) (nodes : List ResolvedNode) : Daemon × Except String Unit :=
  match lookupA d.running dataflow_id with
  | some _ =>
    (d, .error ("there is already a running dataflow with ID " ++ toString dataflow_id))
  | none =>
    let r := processNodes d.machine_id spawnOk (RunningDataflow.new dataflow_id) nodes
    ({ d with running := setA d.running dataflow_id r.1 },
     match r.2 with
     | none => .ok ()
     | some e => .error e)

/-- `Daemon::handle_coordinator_event` (lib.rs lines 239-364).  Events
naming an unknown dataflow id are logged and skipped (`Output`,
`InputsClosed`, `AllNodesReady`) or answered with an error reply
(`ReloadDataflow`, `StopDataflow`); the handler itself never fails. -/
def Daemon.handle_coordinator_event (d : Daemon) (spawnOk : ResolvedNode → Bool) :
    DaemonCoordinatorEvent → Daemon × Option DaemonCoordinatorReply × RunStatus
  | .spawn dataflow_id nodes =>
    let r := d.spawn_dataflow spawnOk dataflow_id nodes
    (r.1, some (.spawnResult r.2), .Continue)
  | .allNodesReady dataflow_id =>
    match lookupA d.running dataflow_id with
    | some df =>
      ({ d with running := setA d.running dataflow_id df.start }, none, .Continue)
    | none => (d, none, .Continue)
  | .reloadDataflow dataflow_id node_id operator_id =>
    match lookupA d.running dataflow_id with
    | some df =>
      ({ d with running := setA d.running dataflow_id (df.send_reload_df node_id operator_id) },
       some (.reloadResult (.ok ())), .Continue)
    | none =>
      (d, some (.reloadResult (.error ("Reload failed: no running dataflow with ID "
        ++ toString dataflow_id))), .Continue)
  | .stopDataflow dataflow_id =>
    match lookupA d.running dataflow_id with
    | some df =>
      ({ d with running := setA d.running dataflow_id df.stop_all },
       some (.stopResult (.ok ())), .Continue)
    | none =>
      (d, some (.stopResult (.error ("no running dataflow with ID "
        ++ toString dataflow_id))), .Continue)
  | .destroy => (d, some (.destroyResult (.ok ())), .Exit)
  | .watchdog => (d, some .watchdogAck, .Continue)
  | .output dataflow_id node_id output_id data =>
    match lookupA d.running dataflow_id with
    | some df =>
      let df' := send_output_to_local_receivers df node_id output_id (data.map Data.vec)
      ({ d with running := setA d.running dataflow_id df' }, none, .Continue)
    | none => (d, none, .Continue)
  | .inputsClosed dataflow_id inputs =>
    match lookupA d.running dataflow_id with
    | some df =>
      ({ d with running := setA d.running dataflow_id (closeLoop inputs df) }, none, .Continue)
    | none => (d, none, .Continue)

/-- `Daemon::handle_node_event` (lib.rs lines 440-572).  For `Subscribe`,
`SubscribeDrop`, `OutputsDone`, `SendOut` and `ReportDrop` an unknown
dataflow id makes the handler return an error (the `?` operator on the
`running` lookup), which `run_inner` propagates; for `CloseOutputs` and
`EventStreamDropped` the error is only encoded into the node reply. -/
def Daemon.handle_node_event (d : Daemon) (ev : DaemonNodeEvent)
    (dataflow_id : DataflowId) (node_id : NodeId) : Except String Daemon :=
  match ev with
  | .subscribe =>
    match lookupA d.running dataflow_id with
    | none =>
      .error ("failed to subscribe: no running dataflow with ID " ++ toString dataflow_id)
    | some df =>
      .ok { d with running := setA d.running dataflow_id (df.handle_subscribe node_id) }
  | .subscribeDrop =>
    match lookupA d.running dataflow_id with
    | none =>
      .error ("failed to subscribe: no running dataflow with ID " ++ toString dataflow_id)
    | some df =>
      .ok { d with running := setA d.running dataflow_id (df.subscribe_drop node_id) }
  | .closeOutputs outputs =>
    match lookupA d.running dataflow_id with
    | none => .ok d
    | some df =>
      let df' := send_input_closed_events df
        (fun p => decide (p.1 = node_id) && outputs.contains p.2)
      .ok { d with running := setA d.running dataflow_id df' }
  | .outputsDone =>
    match lookupA d.running dataflow_id with
    | none =>
      .error ("failed to get downstream nodes: no running dataflow with ID "
        ++ toString dataflow_id)
    | some df =>
      .ok { d with running := setA d.running dataflow_id (df.outputs_done node_id) }
  | .sendOut output_id data =>
    match lookupA d.running dataflow_id with
    | none =>
      .error ("send out failed: no running dataflow with ID " ++ toString dataflow_id)
    | some df =>
      let df' := send_output_to_local_receivers df node_id output_id data
      .ok { d with running := setA d.running dataflow_id df' }
  | .reportDrop tokens =>
    match lookupA d.running dataflow_id with
    | none =>
      .error ("failed to get handle drop tokens: no running dataflow with ID "
        ++ toString dataflow_id)
    | some df =>
      .ok { d with running := setA d.running dataflow_id (df.report_drop node_id tokens) }
  | .eventStreamDropped =>
    match lookupA d.running dataflow_id with
    | none => .ok d
    | some df =>
      let df' := { df with subscribe_channels := df.subscribe_channels.erase node_id }
      .ok { d with running := setA d.running dataflow_id df' }

/-- `Event` (lib.rs lines 1180-1191), restricted to the claim-relevant
alphabet. -/
inductive Event
  | node (dataflow_id : DataflowId) (node_id : NodeId) (event : DaemonNodeEvent)
  | coordinator (event : DaemonCoordinatorEvent)
  | ctrlC
deriving DecidableEq

/-- One iteration of `Daemon::run_inner` (lib.rs lines 184-237).  A node
event handler error is propagated with `?`, making `run_inner` return the
error: the loop stops and the daemon terminates.  Coordinator events reply
and continue (or exit on `Destroy`); Ctrl-C stops every running dataflow. -/
def Daemon.run_step (d : Daemon) (spawnOk : ResolvedNode → Bool) :
    Event → Except String (Daemon × RunStatus)
  | .coordinator ev =>
    let r := d.handle_coordinator_event spawnOk ev
    .ok (r.1, r.2.2)
  | .node dataflow_id node_id ev =>
    (d.handle_node_event ev dataflow_id node_id).map (fun d => (d, .Continue))
  | .ctrlC =>
    .ok ({ d with running := d.running.map (fun p => (p.1, p.2.stop_all)) }, .Continue)

/- ## Node exit status rendering (lib.rs lines 799-822) -/

/-- The numeric-to-symbolic signal rendering of the
`DoraEvent::SpawnedNodeResult` handler: the `match signal` arms of lib.rs
lines 800-816, with the fall-through arm rendering the decimal number. -/
def signalName (signal : Int) : String :=
  if signal = 1 then "SIGHUP"
  else if signal = 2 then "SIGINT"
  else if signal = 3 then "SIGQUIT"
  else if signal = 4 then "SIGILL"
  else if signal = 6 then "SIGABRT"
  else if signal = 8 then "SIGFPE"
  else if signal = 9 then "SIGKILL"
  else if signal = 11 then "SIGSEGV"
  else if signal = 13 then "SIGPIPE"
  else if signal = 14 then "SIGALRM"
  else if signal = 15 then "SIGTERM"
  else if signal = 22 then "SIGABRT"
  else if signal = 23 then "NSIG"
  else toString signal

/- ## Coordinator submission (coordinator/src/run/mod.rs) -/

/-- A daemon's reply frame as deserialized by the coordinator. -/
inductive CoordReply
  | spawnResult (r : Except String Unit)
  | other
deriving DecidableEq

/-- `spawn_dataflow_on_machine` (run/mod.rs lines 58-81): look up the
daemon connection, send the spawn message, await the reply; a missing
connection, an error `SpawnResult` or an unexpected reply variant all
fail.  The transport is abstracted as reliable and the per-machine reply
as the oracle `reply`. -/
def spawn_dataflow_on_machine (connections : List MachineId)
    (reply : MachineId → CoordReply) (machine : MachineId) : Except String Unit :=
  if machine ∈ connections then
    match reply machine with
    | .spawnResult (.ok ()) => .ok ()
    | .spawnResult (.error e) => .error ("daemon returned an error: " ++ e)
    | .other => .error "unexpected reply"
  else .error ("no daemon connection for machine " ++ machine)

/-- The `machines` set of `spawn_dataflow` (run/mod.rs line 36): the
distinct deployment machines of the resolved nodes (`BTreeSet` collect;
the iteration order abstracts the sorted order as first-occurrence
order). -/
def machinesOf (nodes : List ResolvedNode) : List MachineId :=
  (nodes.map ResolvedNode.machine).foldl (fun acc m => insertS m acc) []

/-- The machine loop of `spawn_dataflow` (run/mod.rs lines 46-51): send
`Spawn` to each participating machine in turn, awaiting each
`SpawnResult`; the first failure aborts the loop. -/
def spawnMachinesLoop (connections : List MachineId) (reply : MachineId → CoordReply) :
    List MachineId → Except String Unit
  | [] => .ok ()
  | m :: rest =>
    match spawn_dataflow_on_machine connections reply m with
    | .ok () => spawnMachinesLoop connections reply rest
    | .error e => .error e

/-- Modelled from the spec: the coordinator control plane (the caller of
`spawn_dataflow`, not under src/) reacts to a failed submission by sending
a `Stop` compensation to every daemon that had already spawned the
dataflow ("Any daemon failing its spawn aborts the whole submission;
already-spawned daemons receive a `Stop` compensation").  The returned
list is the machines that received such a `Stop`. -/
def submitDataflow (connections : List MachineId) (reply : MachineId → CoordReply) :
    List MachineId → List MachineId → Except String Unit × List MachineId
  | [], _ => (.ok (), [])
  | m :: rest, spawned =>
    match spawn_dataflow_on_machine connections reply m with
    | .ok () => submitDataflow connections reply rest (spawned ++ [m])
    | .error e => (.error e, spawned)

/- ## Basic lemmas about the map and set helpers -/

theorem lookupA_append_of_none {α β : Type} [DecidableEq α] {m : List (α × β)} {k : α}
    (l : List (α × β)) (h : lookupA m k = none) : lookupA (m ++ l) k = lookupA l k := by
  induction m with
  | nil => simp
  | cons p rest ih =>
    obtain ⟨a, b⟩ := p
    simp only [lookupA] at h
    by_cases ha : a = k
    · simp [ha] at h
    · simp only [List.cons_append, lookupA, if_neg ha] at *
      exact ih h

theorem lookupA_append_of_some {α β : Type} [DecidableEq α] {m : List (α × β)} {k : α}
    {v : β} (l : List (α × β)) (h : lookupA m k = some v) :
    lookupA (m ++ l) k = some v := by
  induction m with
  | nil => simp [lookupA] at h
  | cons p rest ih =>
    obtain ⟨a, b⟩ := p
    simp only [lookupA] at h
    by_cases ha : a = k
    · rw [if_pos ha] at h
      injection h with hbv
      subst hbv
      simp [lookupA, ha]
    · simp only [if_neg ha] at h
      simp only [List.cons_append, lookupA, if_neg ha]
      exact ih h

theorem lookupA_setA_self {α β : Type} [DecidableEq α] (m : List (α × β)) (k : α) (v : β) :
    lookupA (setA m k v) k = some v := by
  induction m with
  | nil => simp [setA, lookupA]
  | cons p rest ih =>
    obtain ⟨a, b⟩ := p
    by_cases h : a = k <;> simp [setA, lookupA, h, ih]

theorem lookupA_setA_ne {α β : Type} [DecidableEq α] (m : List (α × β)) {k k' : α} (v : β)
    (h : k' ≠ k) : lookupA (setA m k v) k' = lookupA m k' := by
  have hk : ¬ k = k' := fun hh => h hh.symm
  induction m with
  | nil => simp [setA, lookupA, hk]
  | cons p rest ih =>
    obtain ⟨a, b⟩ := p
    by_cases ha : a = k
    · subst ha
      simp [setA, lookupA, hk]
    · simp only [setA, if_neg ha, lookupA]
      by_cases ha' : a = k'
      · simp [ha']
      · simp [ha', ih]

theorem lookupA_adjustA_self {α β : Type} [DecidableEq α] (m : List (α × β)) (k : α)
    (dflt : β) (f : β → β) :
    lookupA (adjustA m k dflt f) k = some (f ((lookupA m k).getD dflt)) := by
  unfold adjustA
  cases h : lookupA m k with
  | some v => simp [lookupA_setA_self]
  | none => simp [lookupA_append_of_none _ h, lookupA]

theorem lookupA_adjustA_ne {α β : Type} [DecidableEq α] (m : List (α × β)) {k k' : α}
    (dflt : β) (f : β → β) (h : k' ≠ k) :
    lookupA (adjustA m k dflt f) k' = lookupA m k' := by
  unfold adjustA
  cases hm : lookupA m k with
  | some v => simp [lookupA_setA_ne _ _ h]
  | none =>
    cases hk' : lookupA m k' with
    | some v => simp [lookupA_append_of_some _ hk']
    | none =>
      rw [lookupA_append_of_none _ hk']
      simp only [lookupA]
      rw [if_neg (fun hh : k = k' => h hh.symm)]

theorem mem_insertS {α : Type} [DecidableEq α] {x y : α} {l : List α} :
    y ∈ insertS x l ↔ y = x ∨ y ∈ l := by
  unfold insertS
  by_cases h : x ∈ l
  · simp only [if_pos h]
    constructor
    · exact fun hy => Or.inr hy
    · rintro (rfl | hy)
      · exact h
      · exact hy
  · simp [if_neg h, or_comm]

theorem mem_insertS_self {α : Type} [DecidableEq α] (x : α) (l : List α) :
    x ∈ insertS x l := mem_insertS.mpr (Or.inl rfl)

theorem mem_insertS_of_mem {α : Type} [DecidableEq α] {y : α} (x : α) {l : List α}
    (h : y ∈ l) : y ∈ insertS x l := mem_insertS.mpr (Or.inr h)

theorem nodup_insertS {α : Type} [DecidableEq α] (x : α) {l : List α} (h : l.Nodup) :
    (insertS x l).Nodup := by
  unfold insertS
  by_cases hx : x ∈ l
  · simpa [if_pos hx]
  · simpa [if_neg hx, List.nodup_append, hx]

theorem insertS_ne_nil {α : Type} [DecidableEq α] (x : α) (l : List α) :
    insertS x l ≠ [] := by
  intro h
  have := mem_insertS_self x l
  rw [h] at this
  simp at this

/- ## Field-projection lemmas for the channel primitives -/

theorem sendEvent_channels_self (df : RunningDataflow) (n : NodeId) (ev : NodeEvent) :
    (sendEvent df n ev).channels n = df.channels n ++ [ev] := by
  simp [sendEvent, updF]

theorem sendEvent_channels_ne (df : RunningDataflow) {m n : NodeId} (ev : NodeEvent)
    (h : m ≠ n) : (sendEvent df n ev).channels m = df.channels m := by
  simp [sendEvent, updF, h]

theorem sendEvent_same_shape (df : RunningDataflow) (n : NodeId) (ev : NodeEvent) :
    (sendEvent df n ev).subscribe_channels = df.subscribe_channels ∧
    (sendEvent df n ev).open_inputs = df.open_inputs ∧
    (sendEvent df n ev).drop_channels = df.drop_channels ∧
    (sendEvent df n ev).drop_hist = df.drop_hist ∧
    (sendEvent df n ev).pending_drop_tokens = df.pending_drop_tokens ∧
    (sendEvent df n ev).mappings = df.mappings ∧
    (sendEvent df n ev).timers = df.timers := by
  simp [sendEvent]

/- ## Claim C8: signal rendering -/

/-- Claim C8: when a spawned node exits because of a signal, the daemon
renders the signal number per the mapping 1=SIGHUP, 2=SIGINT, 3=SIGQUIT,
4=SIGILL, 6=SIGABRT, 8=SIGFPE, 9=SIGKILL, 11=SIGSEGV, 13=SIGPIPE,
14=SIGALRM, 15=SIGTERM, with 22 also rendered as SIGABRT and 23 as NSIG,
and every other signal number rendered as its decimal string. -/
theorem signalName_spec :
    (signalName 1 = "SIGHUP" ∧ signalName 2 = "SIGINT" ∧ signalName 3 = "SIGQUIT" ∧
     signalName 4 = "SIGILL" ∧ signalName 6 = "SIGABRT" ∧ signalName 8 = "SIGFPE" ∧
     signalName 9 = "SIGKILL" ∧ signalName 11 = "SIGSEGV" ∧ signalName 13 = "SIGPIPE" ∧
     signalName 14 = "SIGALRM" ∧ signalName 15 = "SIGTERM" ∧ signalName 22 = "SIGABRT" ∧
     signalName 23 = "NSIG") ∧
    ∀ s : Int, s ∉ ([1, 2, 3, 4, 6, 8, 9, 11, 13, 14, 15, 22, 23] : List Int) →
      signalName s = toString s := by
  constructor
  · refine ⟨rfl, rfl, rfl, rfl, rfl, rfl, rfl, rfl, rfl, rfl, rfl, rfl, rfl⟩
  · intro s hs
    simp only [List.mem_cons, List.not_mem_nil, or_false] at hs
    push_neg at hs
    obtain ⟨h1, h2, h3, h4, h6, h8, h9, h11, h13, h14, h15, h22, h23⟩ := hs
    simp [signalName, h1, h2, h3, h4, h6, h8, h9, h11, h13, h14, h15, h22, h23]

/-- Witness for C8: the fall-through arm at signal 5. -/
theorem signalName_spec_witness : signalName 5 = toString (5 : Int) :=
  signalName_spec.2 5 (by decide)

/- ## Claim C7: close_input -/

theorem closeInputNotify_open_inputs (df : RunningDataflow) (r : NodeId) (i : DataId) :
    (closeInputNotify df r i).open_inputs = df.open_inputs := by
  unfold closeInputNotify
  by_cases h : r ∈ df.subscribe_channels
  · rw [if_pos h]
    by_cases h2 : (sendEvent df r (NodeEvent.inputClosed i)).open_inputs_of r = []
    · rw [if_pos h2]
      simp [sendEvent]
    · rw [if_neg h2]
      simp [sendEvent]
  · rw [if_neg h]

/-- Claim C7 (amended): `close_input(receiver, input)` removes the input
from `open_inputs[receiver]` when the receiver HAS an `open_inputs` entry
containing it, then (if the receiver still has a channel) pushes
`InputClosed{input}` plus `AllInputsClosed` exactly when the entry just
became empty; when the entry exists but does not contain the input the
call has no effect at all.  However, when the receiver has NO
`open_inputs` entry, the source falls through the guard: the state is
unchanged but, if the receiver has a channel, every call pushes
`InputClosed{input}` followed by `AllInputsClosed` — the no-entry case is
not idempotent in events. -/
theorem close_input_characterization (df : RunningDataflow) (r : NodeId) (i : DataId) :
    (∀ s, lookupA df.open_inputs r = some s → i ∈ s →
      (close_input df r i).open_inputs = setA df.open_inputs r (s.erase i) ∧
      (r ∈ df.subscribe_channels →
        (close_input df r i).channels r =
          df.channels r ++ [NodeEvent.inputClosed i] ++
            (if s.erase i = [] then [NodeEvent.allInputsClosed] else []))) ∧
    (∀ s, lookupA df.open_inputs r = some s → i ∉ s → close_input df r i = df) ∧
    (lookupA df.open_inputs r = none →
      (close_input df r i).open_inputs = df.open_inputs ∧
      (r ∈ df.subscribe_channels →
        (close_input df r i).channels r =
          df.channels r ++ [NodeEvent.inputClosed i, NodeEvent.allInputsClosed])) := by
  refine ⟨?_, ?_, ?_⟩
  · intro s hs hi
    constructor
    · simp only [close_input, hs, if_pos hi]
      rw [closeInputNotify_open_inputs]
    · intro hr
      simp only [close_input, hs, if_pos hi]
      unfold closeInputNotify
      rw [if_pos (show r ∈ ({ df with
        open_inputs := setA df.open_inputs r (s.erase i) } : RunningDataflow).subscribe_channels
        from hr)]
      have hof : ∀ dfx : RunningDataflow, dfx.open_inputs = setA df.open_inputs r (s.erase i) →
          dfx.open_inputs_of r = s.erase i := by
        intro dfx hx
        simp [RunningDataflow.open_inputs_of, hx, lookupA_setA_self]
      by_cases he : s.erase i = []
      · rw [if_pos (by rw [hof _ (by simp [sendEvent])]; exact he)]
        simp [sendEvent, updF, he]
      · rw [if_neg (by rw [hof _ (by simp [sendEvent])]; exact he)]
        simp [sendEvent, updF, he]
  · intro s hs hi
    simp [close_input, hs, hi]
  · intro hs
    constructor
    · simp only [close_input, hs]
      rw [closeInputNotify_open_inputs]
    · intro hr
      simp only [close_input, hs]
      unfold closeInputNotify
      rw [if_pos hr]
      have hof : (sendEvent df r (NodeEvent.inputClosed i)).open_inputs_of r = [] := by
        simp [RunningDataflow.open_inputs_of, sendEvent, hs]
      rw [if_pos hof]
      simp [sendEvent, updF]

/-- Concrete dataflow for the C7 witness: receiver `r` has the single open
input `i` and a subscribe channel. -/
def dfW7 : RunningDataflow :=
  { RunningDataflow.new 0 with open_inputs := [("r", ["i"])], subscribe_channels := ["r"] }

/-- Witness for C7 at `dfW7`: removal branch and no-op branch. -/
theorem close_input_characterization_witness :
    (close_input dfW7 "r" "i").open_inputs = setA dfW7.open_inputs "r" (["i"].erase "i") ∧
    close_input dfW7 "r" "x" = dfW7 ∧
    (close_input (RunningDataflow.new 0) "r" "i").open_inputs =
      (RunningDataflow.new 0).open_inputs := by
  refine ⟨((close_input_characterization dfW7 "r" "i").1 ["i"] (by decide) (by decide)).1,
    (close_input_characterization dfW7 "r" "x").2.1 ["i"] (by decide) (by decide),
    ((close_input_characterization (RunningDataflow.new 0) "r" "i").2.2 (by decide)).1⟩

/-- Concrete dataflow refuting C7 as stated: receiver `r` has a channel
but no `open_inputs` entry. -/
def dfC7 : RunningDataflow :=
  { RunningDataflow.new 1 with subscribe_channels := ["r"] }

/-- Counterexample to C7 as stated: with no `open_inputs` entry for `r`,
the claim requires `close_input` to return without any event, and a second
call to have no effect; instead each call pushes `InputClosed` and
`AllInputsClosed`. -/
theorem close_input_counterexample :
    (close_input dfC7 "r" "i").channels "r" =
      [NodeEvent.inputClosed "i", NodeEvent.allInputsClosed] ∧
    (close_input (close_input dfC7 "r" "i") "r" "i").channels "r" =
      [NodeEvent.inputClosed "i", NodeEvent.allInputsClosed,
       NodeEvent.inputClosed "i", NodeEvent.allInputsClosed] := by
  constructor <;> rfl

/- ## Claim C10: subscribing with no open_inputs entry -/

theorem handle_subscribe_channels (df : RunningDataflow) (n : NodeId) :
    (df.handle_subscribe n).channels = (df.subscribeNode n).channels := by
  simp only [RunningDataflow.handle_subscribe]
  split_ifs with h
  · simp [RunningDataflow.start]
  · rfl

/-- Claim C10: a node that subscribes while it has no entry in
`open_inputs` (for example a node that declares no inputs) is sent
`AllInputsClosed` immediately during Subscribe handling — the
`open_inputs` lookup for a missing node yields the empty set — and this
happens independently of the dataflow having been started. -/
theorem subscribe_missing_open_inputs (df : RunningDataflow) (n : NodeId)
    (h : lookupA df.open_inputs n = none) :
    (df.subscribeNode n).channels n =
      (closedInputsFor df n).map NodeEvent.inputClosed ++ [NodeEvent.allInputsClosed] ++
        (if df.stop_sent then [NodeEvent.stop] else []) ∧
    NodeEvent.allInputsClosed ∈ (df.handle_subscribe n).channels n := by
  have h1 : df.open_inputs_of n = [] := by simp [RunningDataflow.open_inputs_of, h]
  constructor
  · simp [RunningDataflow.subscribeNode, updF, h1]
  · rw [show (df.handle_subscribe n).channels = (df.subscribeNode n).channels from
      handle_subscribe_channels df n]
    simp [RunningDataflow.subscribeNode, updF, h1]

/-- Witness for C10: a fresh dataflow has no `open_inputs` entry for `n`;
the subscribing node is sent `AllInputsClosed`. -/
theorem subscribe_missing_open_inputs_witness :
    NodeEvent.allInputsClosed ∈ ((RunningDataflow.new 10).handle_subscribe "n").channels "n" :=
  (subscribe_missing_open_inputs (RunningDataflow.new 10) "n" rfl).2

/- ## Claim C6: AllNodesReady / start idempotence -/

/-- Claim C6 (amended): handling the coordinator's AllNodesReady push
invokes `start` on the dataflow; `start` answers every pending subscribe
reply with its recorded status (draining the replies set) and launches
one timer emitter task per distinct timer interval.  Running `start` a
second time answers no replies (the set was drained), but it launches a
SECOND emitter task per interval, appending to the timer-task handles:
re-entry is idempotent on replies but NOT on state or on the timer events
observable by subscribers. -/
theorem allNodesReady_start (d : Daemon) (spawnOk : ResolvedNode → Bool)
    (id : DataflowId) (df : RunningDataflow)
    (h : lookupA d.running id = some df) :
    d.handle_coordinator_event spawnOk (.allNodesReady id) =
      ({ d with running := setA d.running id df.start }, none, .Continue) ∧
    (df.start).subscribe_replies = [] ∧
    (df.start).replies_sent = df.replies_sent ++ df.subscribe_replies ∧
    (df.start).timer_tasks = df.timer_tasks ++ df.timers.map Prod.fst ∧
    (df.start.start).replies_sent = (df.start).replies_sent ∧
    (df.start.start).timer_tasks =
      df.timer_tasks ++ df.timers.map Prod.fst ++ df.timers.map Prod.fst := by
  refine ⟨?_, rfl, rfl, rfl, ?_, ?_⟩
  · simp [Daemon.handle_coordinator_event, h]
  · simp [RunningDataflow.start]
  · simp [RunningDataflow.start]

/-- Concrete dataflow for C6: one timer interval, one pending reply. -/
def dfW6 : RunningDataflow :=
  { RunningDataflow.new 6 with timers := [(100, [("t", "i")])],
                               subscribe_replies := [("t", Except.ok ())] }

/-- Concrete daemon for C6. -/
def dW6 : Daemon := ⟨[(6, dfW6)], "m"⟩

/-- Witness for C6 at `dW6`/`dfW6`. -/
theorem allNodesReady_start_witness :
    dW6.handle_coordinator_event (fun _ => true) (.allNodesReady 6) =
      ({ dW6 with running := setA dW6.running 6 dfW6.start }, none, .Continue) :=
  (allNodesReady_start dW6 (fun _ => true) 6 dfW6 rfl).1

/-- Counterexample to C6 as stated: with one timer interval, a second run
of `start` (after the replies set was drained by the first) does NOT leave
the dataflow's state unchanged — the timer-task list grows from one to two
emitters, doubling the timer events subscribers observe. -/
theorem start_not_idempotent_counterexample : dfW6.start.start ≠ dfW6.start := by
  intro h
  have hh : dfW6.start.start.timer_tasks = dfW6.start.timer_tasks :=
    congrArg RunningDataflow.timer_tasks h
  simp [dfW6, RunningDataflow.start, RunningDataflow.new] at hh

/- ## Claim C9: spawn is not atomic on error -/

theorem processNode_ok_of_spawnOk (m : MachineId) (s : ResolvedNode → Bool)
    (df : RunningDataflow) (node : ResolvedNode)
    (h : node.machine = m → s node = true) : (processNode m s df node).2 = none := by
  unfold processNode
  by_cases hl : node.machine = m
  · simp [hl, h hl]
  · simp [hl]

theorem processNodes_append (m : MachineId) (s : ResolvedNode → Bool)
    (ns1 : List ResolvedNode) (h : ∀ x ∈ ns1, x.machine = m → s x = true) :
    ∀ (df : RunningDataflow) (ns2 : List ResolvedNode),
      processNodes m s df (ns1 ++ ns2) =
        processNodes m s (processNodes m s df ns1).1 ns2 ∧
      (processNodes m s df ns1).2 = none := by
  induction ns1 with
  | nil => intro df ns2; simp [processNodes]
  | cons n rest ih =>
    intro df ns2
    have h2 : (processNode m s df n).2 = none :=
      processNode_ok_of_spawnOk m s df n (h n (List.mem_cons_self n rest))
    rcases hpe : processNode m s df n with ⟨df', e⟩
    rw [hpe] at h2
    simp only at h2
    subst h2
    simp only [List.cons_append, processNodes, hpe]
    exact ih (fun x hx hm => h x (List.mem_cons_of_mem n hx) hm) df' ns2

theorem processNodes_fail (m : MachineId) (s : ResolvedNode → Bool)
    (ns1 : List ResolvedNode) (n : ResolvedNode)
    (h : ∀ x ∈ ns1, x.machine = m → s x = true)
    (hn : n.machine = m) (hf : s n = false) :
    ∀ (df : RunningDataflow) (ns2 : List ResolvedNode),
      processNodes m s df (ns1 ++ n :: ns2) = processNodes m s df (ns1 ++ [n]) ∧
      (processNodes m s df (ns1 ++ n :: ns2)).2 = some ("failed to spawn node " ++ n.id) := by
  intro df ns2
  have happ := processNodes_append m s ns1 h df (n :: ns2)
  have happ1 := processNodes_append m s ns1 h df [n]
  have hstep : ∀ dfx : RunningDataflow, processNode m s dfx n =
      ({ registerNodeInputs m dfx n with
          pending_nodes := insertS n.id (registerNodeInputs m dfx n).pending_nodes },
        some ("failed to spawn node " ++ n.id)) := by
    intro dfx
    unfold processNode
    simp [hn, hf]
  constructor
  · rw [happ.1, happ1.1]
    simp only [processNodes, hstep]
  · rw [happ.1]
    simp only [processNodes, hstep]

/-- Claim C9: `Daemon::spawn_dataflow` inserts the fresh `RunningDataflow`
into `running` before processing nodes; if spawning a node fails part-way
the daemon replies `SpawnResult(Err)` but the partially populated
dataflow — exactly the processing of the nodes up to and including the
failing one — remains registered, and a subsequent Spawn with the same id
fails with a duplicate-id error, leaving the daemon unchanged. -/
theorem spawn_not_atomic (d : Daemon) (spawnOk : ResolvedNode → Bool)
    (id : DataflowId) (ns1 : List ResolvedNode) (n : ResolvedNode)
    (ns2 nodes2 : List ResolvedNode)
    (hfree : lookupA d.running id = none)
    (hpre : ∀ x ∈ ns1, x.machine = d.machine_id → spawnOk x = true)
    (hn : n.machine = d.machine_id) (hf : spawnOk n = false) :
    (d.handle_coordinator_event spawnOk (.spawn id (ns1 ++ n :: ns2))).2.1 =
      some (.spawnResult (.error ("failed to spawn node " ++ n.id))) ∧
    (d.handle_coordinator_event spawnOk (.spawn id (ns1 ++ n :: ns2))).2.2 = .Continue ∧
    lookupA (d.handle_coordinator_event spawnOk (.spawn id (ns1 ++ n :: ns2))).1.running id =
      some (processNodes d.machine_id spawnOk (RunningDataflow.new id) (ns1 ++ [n])).1 ∧
    (d.handle_coordinator_event spawnOk (.spawn id (ns1 ++ n :: ns2))).1.handle_coordinator_event
        spawnOk (.spawn id nodes2) =
      ((d.handle_coordinator_event spawnOk (.spawn id (ns1 ++ n :: ns2))).1,
       some (.spawnResult (.error ("there is already a running dataflow with ID "
         ++ toString id))), .Continue) := by
  have hmain := processNodes_fail d.machine_id spawnOk ns1 n hpre hn hf
    (RunningDataflow.new id) ns2
  refine ⟨?_, ?_, ?_, ?_⟩
  · simp [Daemon.handle_coordinator_event, Daemon.spawn_dataflow, hfree, hmain.2]
  · simp [Daemon.handle_coordinator_event, Daemon.spawn_dataflow, hfree, hmain.2]
  · simp only [Daemon.handle_coordinator_event, Daemon.spawn_dataflow, hfree]
    simp [lookupA_setA_self, hmain.1]
  · simp [Daemon.handle_coordinator_event, Daemon.spawn_dataflow, hfree, lookupA_setA_self]

/-- Concrete nodes for the C9 witness. -/
def nodeA9 : ResolvedNode := ⟨"A", "m", .custom [] []⟩

/-- The failing node of the C9 witness. -/
def nodeB9 : ResolvedNode := ⟨"B", "m", .custom [] []⟩

/-- Witness for C9: node A spawns, node B fails, the id stays registered
and a duplicate Spawn is rejected. -/
theorem spawn_not_atomic_witness :
    ((Daemon.mk [] "m").handle_coordinator_event (fun nd => !(nd.id == "B"))
        (.spawn 3 ([nodeA9] ++ nodeB9 :: []))).2.1 =
      some (.spawnResult (.error ("failed to spawn node " ++ nodeB9.id))) ∧
    lookupA ((Daemon.mk [] "m").handle_coordinator_event (fun nd => !(nd.id == "B"))
        (.spawn 3 ([nodeA9] ++ nodeB9 :: []))).1.running 3 =
      some (processNodes "m" (fun nd => !(nd.id == "B"))
        (RunningDataflow.new 3) ([nodeA9] ++ [nodeB9])).1 := by
  have h := spawn_not_atomic (Daemon.mk [] "m") (fun nd => !(nd.id == "B")) 3
    [nodeA9] nodeB9 [] [] rfl (by decide) rfl rfl
  exact ⟨h.1, h.2.2.1⟩

/- ## Claim C3: external-node registration in Daemon::spawn_dataflow -/

/-- Membership of a consumer input in the external-mapping table under a
given output key and consumer machine. -/
def extHas (m : List (OutputId × List (MachineId × List InputId))) (k : OutputId)
    (mach : MachineId) (x : InputId) : Prop :=
  ∃ ms ins, lookupA m k = some ms ∧ lookupA ms mach = some ins ∧ x ∈ ins

/-- The registration step of `registerNodeInputs` for one input entry. -/
def registerStep (machine_id : MachineId) (node : ResolvedNode)
    (df : RunningDataflow) (p : DataId × InputMapping) : RunningDataflow :=
  if node.machine = machine_id then
    let df := { df with open_inputs := adjustA df.open_inputs node.id [] (insertS p.1) }
    match p.2 with
    | .user source output =>
      { df with mappings := adjustA df.mappings (source, output) [] (insertS (node.id, p.1)) }
    | .timer interval =>
      { df with timers := adjustA df.timers interval [] (insertS (node.id, p.1)) }
  else
    match p.2 with
    | .user source output =>
      let m' := adjustA df.open_external_mappings (source, output) []
        (fun m => adjustA m node.machine [] (insertS (node.id, p.1)))
      { df with open_external_mappings := m' }
    | .timer _ => df

theorem registerNodeInputs_eq_foldl (machine_id : MachineId) (df : RunningDataflow)
    (node : ResolvedNode) :
    registerNodeInputs machine_id df node =
      (node_inputs node).foldl (registerStep machine_id node) df := rfl

theorem registerStep_ext_fields (machine_id : MachineId) (node : ResolvedNode)
    (hext : node.machine ≠ machine_id) (df : RunningDataflow) (p : DataId × InputMapping) :
    (registerStep machine_id node df p).external_nodes = df.external_nodes ∧
    (registerStep machine_id node df p).open_inputs = df.open_inputs ∧
    (registerStep machine_id node df p).mappings = df.mappings ∧
    (registerStep machine_id node df p).timers = df.timers := by
  unfold registerStep
  rw [if_neg hext]
  cases p.2 <;> simp

theorem foldl_registerStep_ext_fields (machine_id : MachineId) (node : ResolvedNode)
    (hext : node.machine ≠ machine_id) :
    ∀ (l : List (DataId × InputMapping)) (df : RunningDataflow),
      (l.foldl (registerStep machine_id node) df).external_nodes = df.external_nodes ∧
      (l.foldl (registerStep machine_id node) df).open_inputs = df.open_inputs ∧
      (l.foldl (registerStep machine_id node) df).mappings = df.mappings ∧
      (l.foldl (registerStep machine_id node) df).timers = df.timers := by
  intro l
  induction l with
  | nil => intro df; exact ⟨rfl, rfl, rfl, rfl⟩
  | cons p t ih =>
    intro df
    have hstep := registerStep_ext_fields machine_id node hext df p
    have ht := ih (registerStep machine_id node df p)
    simp only [List.foldl_cons]
    exact ⟨ht.1.trans hstep.1, ht.2.1.trans hstep.2.1,
      ht.2.2.1.trans hstep.2.2.1, ht.2.2.2.trans hstep.2.2.2⟩

theorem extHas_registerStep (machine_id : MachineId) (node : ResolvedNode)
    (hext : node.machine ≠ machine_id) (df : RunningDataflow) (p : DataId × InputMapping)
    {k : OutputId} {mach : MachineId} {x : InputId}
    (h : extHas df.open_external_mappings k mach x) :
    extHas (registerStep machine_id node df p).open_external_mappings k mach x := by
  obtain ⟨ms, ins, hms, hins, hx⟩ := h
  unfold registerStep
  rw [if_neg hext]
  rcases p with ⟨i, mp⟩
  cases mp with
  | timer interval => exact ⟨ms, ins, hms, hins, hx⟩
  | user s o =>
    simp only
    by_cases hk : k = (s, o)
    · subst hk
      refine ⟨adjustA ms node.machine [] (insertS (node.id, i)), ?_⟩
      rw [lookupA_adjustA_self, hms]
      by_cases hm : mach = node.machine
      · subst hm
        refine ⟨insertS (node.id, i) ins, ⟨rfl, ?_, mem_insertS_of_mem _ hx⟩⟩
        rw [lookupA_adjustA_self, hins]
        rfl
      · exact ⟨ins, ⟨rfl, by rw [lookupA_adjustA_ne _ _ _ hm]; exact hins, hx⟩⟩
    · exact ⟨ms, ins, by rw [lookupA_adjustA_ne _ _ _ hk]; exact hms, hins, hx⟩

theorem extHas_registerStep_self (machine_id : MachineId) (node : ResolvedNode)
    (hext : node.machine ≠ machine_id) (df : RunningDataflow) (i : DataId)
    (s : NodeId) (o : DataId) :
    extHas (registerStep machine_id node df (i, .user s o)).open_external_mappings
      (s, o) node.machine (node.id, i) := by
  unfold registerStep
  rw [if_neg hext]
  simp only
  refine ⟨adjustA ((lookupA df.open_external_mappings (s, o)).getD []) node.machine []
    (insertS (node.id, i)), ?_⟩
  rw [lookupA_adjustA_self]
  refine ⟨insertS (node.id, i)
    ((lookupA ((lookupA df.open_external_mappings (s, o)).getD []) node.machine).getD []), rfl,
    ?_, mem_insertS_self _ _⟩
  rw [lookupA_adjustA_self]

theorem extHas_foldl_registerStep (machine_id : MachineId) (node : ResolvedNode)
    (hext : node.machine ≠ machine_id) {k : OutputId} {mach : MachineId} {x : InputId} :
    ∀ (l : List (DataId × InputMapping)) (df : RunningDataflow),
      extHas df.open_external_mappings k mach x →
      extHas (l.foldl (registerStep machine_id node) df).open_external_mappings k mach x := by
  intro l
  induction l with
  | nil => intro df h; exact h
  | cons p t ih =>
    intro df h
    exact ih _ (extHas_registerStep machine_id node hext df p h)

theorem extHas_foldl_registerStep_of_mem (machine_id : MachineId) (node : ResolvedNode)
    (hext : node.machine ≠ machine_id) (i : DataId) (s : NodeId) (o : DataId) :
    ∀ (l : List (DataId × InputMapping)) (df : RunningDataflow),
      (i, InputMapping.user s o) ∈ l →
      extHas (l.foldl (registerStep machine_id node) df).open_external_mappings
        (s, o) node.machine (node.id, i) := by
  intro l
  induction l with
  | nil => intro df h; simp at h
  | cons p t ih =>
    intro df h
    rcases List.mem_cons.mp h with hh | ht
    · subst hh
      simp only [List.foldl_cons]
      exact extHas_foldl_registerStep machine_id node hext t _
        (extHas_registerStep_self machine_id node hext df i s o)
    · exact ih _ ht

/-- Claim C3 (amended): when the daemon handles Spawn, every node whose
deployment machine differs from the daemon's `machine_id` is added to
`external_nodes` (and none of the local tables `open_inputs`, `mappings`,
`timers` is touched); for EVERY `User` input mapping of such a node an
`open_external_mappings` entry is registered under the consumer's machine,
keyed by the mapping's source output — the source checks nothing about
whether this daemon hosts the source output, so `User` mappings between
two non-local nodes also produce an entry.  Timer inputs of non-local
nodes register nothing. -/
theorem external_node_registration (machine_id : MachineId) (spawnOk : ResolvedNode → Bool)
    (df : RunningDataflow) (node : ResolvedNode) (hext : node.machine ≠ machine_id) :
    (processNode machine_id spawnOk df node).2 = none ∧
    lookupA (processNode machine_id spawnOk df node).1.external_nodes node.id = some node ∧
    (processNode machine_id spawnOk df node).1.open_inputs = df.open_inputs ∧
    (processNode machine_id spawnOk df node).1.mappings = df.mappings ∧
    (processNode machine_id spawnOk df node).1.timers = df.timers ∧
    ∀ i s o, (i, InputMapping.user s o) ∈ node_inputs node →
      extHas (processNode machine_id spawnOk df node).1.open_external_mappings
        (s, o) node.machine (node.id, i) := by
  have hfields := foldl_registerStep_ext_fields machine_id node hext (node_inputs node) df
  unfold processNode
  rw [if_neg hext]
  rw [registerNodeInputs_eq_foldl]
  refine ⟨rfl, ?_, ?_, ?_, ?_, ?_⟩
  · simp only
    rw [lookupA_setA_self]
  · exact hfields.2.1
  · exact hfields.2.2.1
  · exact hfields.2.2.2
  · intro i s o hmem
    exact extHas_foldl_registerStep_of_mem machine_id node hext i s o (node_inputs node) df hmem

/-- Consumer node of the C3 counterexample: `B` on machine `m2` with a
`User` input sourced at `C`, also on machine `m2`. -/
def nodeB3 : ResolvedNode := ⟨"B", "m2", .custom [("in", .user "C" "out")] []⟩

/-- Source node of the C3 counterexample: `C` on machine `m2`. -/
def nodeC3 : ResolvedNode := ⟨"C", "m2", .custom [] ["out"]⟩

/-- Counterexample to C3 as stated: daemon `m1` hosts neither `B` nor the
source `C`, so per the claim the `User` mapping between the two non-local
nodes must produce no `open_external_mappings` entry; the code registers
one anyway. -/
theorem external_mapping_counterexample :
    ((Daemon.mk [] "m1").spawn_dataflow (fun _ => true) 3 [nodeC3, nodeB3]).2 = .ok () ∧
    ((lookupA (((Daemon.mk [] "m1").spawn_dataflow (fun _ => true) 3
        [nodeC3, nodeB3]).1.running) 3).bind
      (fun df => lookupA df.open_external_mappings ("C", "out"))) =
      some [("m2", [("B", "in")])] := by
  constructor <;> rfl

/-- Witness for C3 (amended) at `nodeB3` relative to daemon machine `m1`. -/
theorem external_node_registration_witness :
    lookupA (processNode "m1" (fun _ => true) (RunningDataflow.new 3) nodeB3).1.external_nodes
      nodeB3.id = some nodeB3 ∧
    extHas (processNode "m1" (fun _ => true) (RunningDataflow.new 3) nodeB3).1.open_external_mappings
      ("C", "out") nodeB3.machine (nodeB3.id, "in") := by
  have h := external_node_registration "m1" (fun _ => true) (RunningDataflow.new 3) nodeB3
    (by decide)
  exact ⟨h.2.1, h.2.2.2.2.2 "in" "C" "out" (by decide)⟩

/- ## Claim C2: submission abort and Stop compensation -/

/-- Claim C2: during a dataflow submission the coordinator sends Spawn to
each participating daemon in turn and awaits `SpawnResult`; if any daemon
returns a failed `SpawnResult` the whole submission is aborted with an
error, and (per the spec-modelled compensation of the control-plane
caller) every daemon that was already spawned receives a Stop message;
when every daemon spawns successfully nothing is stopped. -/
theorem submission_abort_and_compensation (connections : List MachineId)
    (reply : MachineId → CoordReply) (pre : List MachineId) (m : MachineId)
    (suf : List MachineId) (e : String)
    (hpre : ∀ x ∈ pre, spawn_dataflow_on_machine connections reply x = .ok ())
    (hconn : m ∈ connections) (hrep : reply m = .spawnResult (.error e)) :
    (∀ spawned, submitDataflow connections reply (pre ++ m :: suf) spawned =
      (.error ("daemon returned an error: " ++ e), spawned ++ pre)) ∧
    spawnMachinesLoop connections reply (pre ++ m :: suf) =
      .error ("daemon returned an error: " ++ e) ∧
    (∀ ms, (∀ x ∈ ms, spawn_dataflow_on_machine connections reply x = .ok ()) →
      ∀ spawned, submitDataflow connections reply ms spawned = (.ok (), [])) := by
  have hm : spawn_dataflow_on_machine connections reply m =
      .error ("daemon returned an error: " ++ e) := by
    unfold spawn_dataflow_on_machine
    rw [if_pos hconn, hrep]
  refine ⟨?_, ?_, ?_⟩
  · induction pre with
    | nil =>
      intro spawned
      simp [submitDataflow, hm]
    | cons p t ih =>
      intro spawned
      have hok := hpre p (List.mem_cons_self p t)
      have ihx := ih (fun x hx => hpre x (List.mem_cons_of_mem p hx)) (spawned ++ [p])
      simp only [List.cons_append, submitDataflow, hok]
      simpa using ihx
  · induction pre with
    | nil => simp [spawnMachinesLoop, hm]
    | cons p t ih =>
      have hok := hpre p (List.mem_cons_self p t)
      simp only [List.cons_append, spawnMachinesLoop, hok]
      exact ih (fun x hx => hpre x (List.mem_cons_of_mem p hx))
  · intro ms hall
    induction ms with
    | nil => intro spawned; rfl
    | cons p t ih =>
      intro spawned
      have hok := hall p (List.mem_cons_self p t)
      simp only [submitDataflow, hok]
      exact ih (fun x hx => hall x (List.mem_cons_of_mem p hx)) (spawned ++ [p])

/-- Reply oracle of the C2 witness: machine `m2` fails its spawn. -/
def replyW2 : MachineId → CoordReply :=
  fun mch => if mch = "m2" then .spawnResult (.error "boom") else .spawnResult (.ok ())

/-- Nodes of the C2 witness spanning machines m1, m2, m3 (m2 twice). -/
def nodesW2 : List ResolvedNode :=
  [⟨"a", "m1", .custom [] []⟩, ⟨"b", "m2", .custom [] []⟩,
   ⟨"c", "m3", .custom [] []⟩, ⟨"d", "m2", .custom [] []⟩]

/-- Witness for C2: over the machine set of `nodesW2` the submission
aborts at m2 and exactly m1 (already spawned) receives the Stop
compensation. -/
theorem submission_abort_and_compensation_witness :
    submitDataflow ["m1", "m2", "m3"] replyW2 (machinesOf nodesW2) [] =
      (.error ("daemon returned an error: " ++ "boom"), [] ++ ["m1"]) :=
  (submission_abort_and_compensation ["m1", "m2", "m3"] replyW2 ["m1"] "m2" ["m3"] "boom"
    (by decide) (by decide) rfl).1 []

/- ## Claim C1: events naming an unknown dataflow id -/

/-- Claim C1 (amended): a COORDINATOR push naming a dataflow id with no
running dataflow (`Output`, `InputsClosed`, `AllNodesReady`) is logged and
skipped: the daemon state is unchanged and the event loop continues.  A
routed NODE event naming an unknown dataflow id (`Subscribe`,
`SubscribeDrop`, `SendOut`, `ReportDrop`, `OutputsDone`), however, makes
`handle_node_event` return an error that `run_inner` propagates with `?`,
terminating the event loop and hence the daemon. -/
theorem unknown_dataflow_events (d : Daemon) (spawnOk : ResolvedNode → Bool)
    (id : DataflowId) (n : NodeId) (o : DataId) (bytes : Option (List Nat))
    (data : Option Data) (pairs : List InputId) (tokens : List DropToken)
    (h : lookupA d.running id = none) :
    d.handle_coordinator_event spawnOk (.output id n o bytes) = (d, none, .Continue) ∧
    d.handle_coordinator_event spawnOk (.inputsClosed id pairs) = (d, none, .Continue) ∧
    d.handle_coordinator_event spawnOk (.allNodesReady id) = (d, none, .Continue) ∧
    (d.run_step spawnOk (.node id n .subscribe)).isOk = false ∧
    (d.run_step spawnOk (.node id n .subscribeDrop)).isOk = false ∧
    (d.run_step spawnOk (.node id n (.sendOut o data))).isOk = false ∧
    (d.run_step spawnOk (.node id n (.reportDrop tokens))).isOk = false ∧
    (d.run_step spawnOk (.node id n .outputsDone)).isOk = false := by
  refine ⟨?_, ?_, ?_, ?_, ?_, ?_, ?_, ?_⟩ <;>
    simp [Daemon.handle_coordinator_event, Daemon.run_step, Daemon.handle_node_event, h,
      Except.map, Except.isOk, Except.toBool]

/-- Counterexample to C1 as stated: a `SendOut` routed to a dataflow id
with no running dataflow does NOT let the event loop continue — the
iteration of `run_inner` results in an error (the daemon terminates with
it) rather than logging and skipping. -/
theorem unknown_dataflow_counterexample :
    ((Daemon.mk [] "m").run_step (fun _ => true)
      (.node 0 "n" (.sendOut "o" none))).isOk = false := rfl

/-- Witness for C1 (amended) at the empty daemon. -/
theorem unknown_dataflow_events_witness :
    (Daemon.mk [] "m").handle_coordinator_event (fun _ => true) (.output 0 "n" "o" none) =
      (Daemon.mk [] "m", none, .Continue) ∧
    ((Daemon.mk [] "m").run_step (fun _ => true) (.node 0 "n" .outputsDone)).isOk = false := by
  have h := unknown_dataflow_events (Daemon.mk [] "m") (fun _ => true) 0 "n" "o"
    none none [] [] rfl
  exact ⟨h.1, h.2.2.2.2.2.2.2⟩

/- ## Claim C5: stop_all and the position of Stop events -/

theorem stopLoop_not_mem (n : NodeId) :
    ∀ (l : List NodeId) (df : RunningDataflow), n ∉ l →
      (stopLoop l df).channels n = df.channels n ∧
      (stopLoop l df).subscribe_channels = df.subscribe_channels := by
  intro l
  induction l with
  | nil => intro df _; exact ⟨rfl, rfl⟩
  | cons a t ih =>
    intro df hn
    have hna : n ≠ a := fun hh => hn (hh ▸ List.mem_cons_self a t)
    have hnt : n ∉ t := fun hh => hn (List.mem_cons_of_mem a hh)
    have hi := ih (sendEvent df a .stop) hnt
    refine ⟨hi.1.trans (sendEvent_channels_ne df .stop hna), hi.2.trans ?_⟩
    simp [sendEvent]

theorem stopLoop_mem (n : NodeId) :
    ∀ (l : List NodeId) (df : RunningDataflow), l.Nodup → n ∈ l →
      (stopLoop l df).channels n = df.channels n ++ [NodeEvent.stop] := by
  intro l
  induction l with
  | nil => intro df _ h; simp at h
  | cons a t ih =>
    intro df hnd hn
    by_cases hna : n = a
    · subst hna
      have hnt : n ∉ t := (List.nodup_cons.mp hnd).1
      have := (stopLoop_not_mem n t (sendEvent df n .stop) hnt).1
      rw [show stopLoop (n :: t) df = stopLoop t (sendEvent df n .stop) from rfl, this,
        sendEvent_channels_self]
    · have hnt : n ∈ t := by
        rcases List.mem_cons.mp hn with h | h
        · exact absurd h hna
        · exact h
      rw [show stopLoop (a :: t) df = stopLoop t (sendEvent df a .stop) from rfl,
        ih (sendEvent df a .stop) (List.nodup_cons.mp hnd).2 hnt,
        sendEvent_channels_ne df .stop hna]

theorem timerLoop_frame (n : NodeId) (interval : Nat) :
    ∀ (l : List InputId) (df : RunningDataflow), n ∉ df.subscribe_channels →
      (timerLoop interval l df).channels n = df.channels n ∧
      (timerLoop interval l df).subscribe_channels = df.subscribe_channels := by
  intro l
  induction l with
  | nil => intro df _; exact ⟨rfl, rfl⟩
  | cons p t ih =>
    intro df hn
    simp only [timerLoop]
    by_cases hp : p.1 ∈ df.subscribe_channels
    · rw [if_pos hp]
      have hne : n ≠ p.1 := fun hh => hn (hh ▸ hp)
      have hi := ih (sendEvent df p.1 (.input p.2 none)) (by simpa [sendEvent] using hn)
      refine ⟨hi.1.trans (sendEvent_channels_ne df _ hne), hi.2.trans ?_⟩
      simp [sendEvent]
    · rw [if_neg hp]
      exact ih df hn

theorem deliverStep_frame (src : NodeId) (data : Option Data) (df : RunningDataflow)
    (p : InputId) {n : NodeId} (hn : n ∉ df.subscribe_channels) :
    (deliverStep src data df p).channels n = df.channels n ∧
    (deliverStep src data df p).subscribe_channels = df.subscribe_channels := by
  unfold deliverStep
  by_cases hp : p.1 ∈ df.subscribe_channels
  · rw [if_pos hp]
    have hne : n ≠ p.1 := fun hh => hn (hh ▸ hp)
    cases hd : data.bind Data.dropTokenOf with
    | none =>
      simp only [hd]
      exact ⟨sendEvent_channels_ne df _ hne, by simp [sendEvent]⟩
    | some token =>
      simp only [hd]
      exact ⟨sendEvent_channels_ne df _ hne, by simp [sendEvent]⟩
  · rw [if_neg hp]
    exact ⟨rfl, rfl⟩

theorem deliverLoop_frame (n : NodeId) (src : NodeId) (data : Option Data) :
    ∀ (l : List InputId) (df : RunningDataflow), n ∉ df.subscribe_channels →
      (deliverLoop src data l df).channels n = df.channels n ∧
      (deliverLoop src data l df).subscribe_channels = df.subscribe_channels := by
  intro l
  induction l with
  | nil => intro df _; exact ⟨rfl, rfl⟩
  | cons p t ih =>
    intro df hn
    have h1 := deliverStep_frame src data df p hn
    have h2 := ih (deliverStep src data df p) (h1.2 ▸ hn)
    exact ⟨h2.1.trans h1.1, h2.2.trans h1.2⟩

theorem check_drop_token_frame (df : RunningDataflow) (t : DropToken) :
    (df.check_drop_token t).channels = df.channels ∧
    (df.check_drop_token t).subscribe_channels = df.subscribe_channels ∧
    (df.check_drop_token t).open_inputs = df.open_inputs := by
  cases h : df.pending_drop_tokens t with
  | none => simp [RunningDataflow.check_drop_token, h]
  | some info =>
    by_cases hp : info.pending_nodes = []
    · by_cases ho : info.owner ∈ df.drop_channels
      · simp [RunningDataflow.check_drop_token, h, hp, ho]
      · simp [RunningDataflow.check_drop_token, h, hp, ho]
    · simp [RunningDataflow.check_drop_token, h, hp]

theorem reportDropOne_frame (df : RunningDataflow) (m : NodeId) (t : DropToken) :
    (reportDropOne df m t).channels = df.channels ∧
    (reportDropOne df m t).subscribe_channels = df.subscribe_channels := by
  cases h : df.pending_drop_tokens t with
  | none => simp [reportDropOne, h]
  | some info =>
    by_cases hm : m ∈ info.pending_nodes
    · simp only [reportDropOne, h, if_pos hm]
      exact ⟨(check_drop_token_frame _ t).1, (check_drop_token_frame _ t).2.1⟩
    · simp [reportDropOne, h, hm]

theorem report_drop_frame (m : NodeId) :
    ∀ (tokens : List DropToken) (df : RunningDataflow),
      (df.report_drop m tokens).channels = df.channels ∧
      (df.report_drop m tokens).subscribe_channels = df.subscribe_channels := by
  intro tokens
  induction tokens with
  | nil => intro df; exact ⟨rfl, rfl⟩
  | cons t rest ih =>
    intro df
    have h1 := reportDropOne_frame df m t
    have h2 := ih (reportDropOne df m t)
    exact ⟨h2.1.trans h1.1, h2.2.trans h1.2⟩

theorem close_input_frame (df : RunningDataflow) (r : NodeId) (i : DataId) {n : NodeId}
    (hn : n ∉ df.subscribe_channels) :
    (close_input df r i).channels n = df.channels n ∧
    (close_input df r i).subscribe_channels = df.subscribe_channels := by
  have hnotify : ∀ dfx : RunningDataflow, dfx.subscribe_channels = df.subscribe_channels →
      dfx.channels n = df.channels n →
      (closeInputNotify dfx r i).channels n = df.channels n ∧
      (closeInputNotify dfx r i).subscribe_channels = df.subscribe_channels := by
    intro dfx hsub hch
    unfold closeInputNotify
    by_cases hr : r ∈ dfx.subscribe_channels
    · rw [if_pos hr]
      have hne : n ≠ r := fun hh => hn (hh ▸ hsub ▸ hr)
      by_cases he : (sendEvent dfx r (NodeEvent.inputClosed i)).open_inputs_of r = []
      · rw [if_pos he]
        constructor
        · rw [sendEvent_channels_ne _ _ hne, sendEvent_channels_ne _ _ hne, hch]
        · simp [sendEvent, hsub]
      · rw [if_neg he]
        constructor
        · rw [sendEvent_channels_ne _ _ hne, hch]
        · simp [sendEvent, hsub]
    · rw [if_neg hr]
      exact ⟨hch, hsub⟩
  cases hoi : lookupA df.open_inputs r with
  | none =>
    simp only [close_input, hoi]
    exact hnotify df rfl rfl
  | some s =>
    by_cases hi : i ∈ s
    · simp only [close_input, hoi, if_pos hi]
      exact hnotify _ rfl rfl
    · simp [close_input, hoi, hi]

theorem closeLoop_frame (n : NodeId) :
    ∀ (l : List InputId) (df : RunningDataflow), n ∉ df.subscribe_channels →
      (closeLoop l df).channels n = df.channels n ∧
      (closeLoop l df).subscribe_channels = df.subscribe_channels := by
  intro l
  induction l with
  | nil => intro df _; exact ⟨rfl, rfl⟩
  | cons p t ih =>
    intro df hn
    have h1 := close_input_frame df p.1 p.2 hn
    have h2 := ih (close_input df p.1 p.2) (h1.2 ▸ hn)
    exact ⟨h2.1.trans h1.1, h2.2.trans h1.2⟩

theorem send_input_closed_events_frame (df : RunningDataflow) (filter : OutputId → Bool)
    {n : NodeId} (hn : n ∉ df.subscribe_channels) :
    (send_input_closed_events df filter).channels n = df.channels n ∧
    (send_input_closed_events df filter).subscribe_channels = df.subscribe_channels := by
  unfold send_input_closed_events
  have h := closeLoop_frame n
    ((((df.mappings.filter (fun p => filter p.1)).map Prod.snd).flatten).foldl
      (fun acc p => insertS p acc) []) df hn
  exact ⟨h.1, h.2⟩

theorem send_output_frame (df : RunningDataflow) (src : NodeId) (o : DataId)
    (data : Option Data) {n : NodeId} (hn : n ∉ df.subscribe_channels) :
    (send_output_to_local_receivers df src o data).channels n = df.channels n ∧
    (send_output_to_local_receivers df src o data).subscribe_channels =
      df.subscribe_channels := by
  have hd := deliverLoop_frame n src data ((lookupA df.mappings (src, o)).getD []) df hn
  cases hdt : data.bind Data.dropTokenOf with
  | none =>
    simp only [send_output_to_local_receivers, hdt]
    exact hd
  | some token =>
    simp only [send_output_to_local_receivers, hdt]
    exact ⟨(congrFun (check_drop_token_frame _ token).1 n).trans hd.1,
      ((check_drop_token_frame _ token).2.1).trans hd.2⟩

theorem handle_subscribe_subscriptions (df : RunningDataflow) (m : NodeId) :
    (df.handle_subscribe m).subscribe_channels = insertS m df.subscribe_channels := by
  simp only [RunningDataflow.handle_subscribe]
  split_ifs with h
  · simp [RunningDataflow.start, RunningDataflow.subscribeNode]
  · simp [RunningDataflow.subscribeNode]

theorem subscribeNode_channels_ne (df : RunningDataflow) {m n : NodeId} (h : n ≠ m) :
    (df.subscribeNode m).channels n = df.channels n := by
  simp [RunningDataflow.subscribeNode, updF, h]

/-- Frame property of one event-loop operation: a node without a
subscribe channel receives no event, and does not become subscribed,
unless the operation is its own Subscribe. -/
theorem applyOp_frame (df : RunningDataflow) (op : DfOp) {n : NodeId}
    (hn : n ∉ df.subscribe_channels) (hop : op ≠ DfOp.subscribe n) :
    (applyOp df op).channels n = df.channels n ∧
    n ∉ (applyOp df op).subscribe_channels := by
  cases op with
  | subscribe m =>
    have hm : n ≠ m := fun hh => hop (by rw [hh])
    constructor
    · rw [show (applyOp df (DfOp.subscribe m)).channels = (df.subscribeNode m).channels from
        handle_subscribe_channels df m]
      exact subscribeNode_channels_ne df hm
    · rw [show (applyOp df (DfOp.subscribe m)).subscribe_channels =
          insertS m df.subscribe_channels from handle_subscribe_subscriptions df m]
      intro hmem
      rcases mem_insertS.mp hmem with h | h
      · exact hm h
      · exact hn h
  | subscribeDrop m =>
    exact ⟨rfl, by simpa [applyOp, RunningDataflow.subscribe_drop] using hn⟩
  | stopAll =>
    have h := stopLoop_not_mem n df.subscribe_channels df hn
    refine ⟨?_, by simp [applyOp, RunningDataflow.stop_all]⟩
    simpa [applyOp, RunningDataflow.stop_all] using h.1
  | timerFire interval =>
    simp only [applyOp, RunningDataflow.timerFire]
    cases lookupA df.timers interval with
    | none => exact ⟨rfl, hn⟩
    | some subs =>
      have h := timerLoop_frame n interval subs df hn
      exact ⟨h.1, h.2 ▸ hn⟩
  | closeInput r i =>
    have h := close_input_frame df r i hn
    exact ⟨h.1, h.2 ▸ hn⟩
  | sendOut src o data =>
    have h := send_output_frame df src o data hn
    exact ⟨h.1, h.2 ▸ hn⟩
  | reportDrop m tokens =>
    have h := report_drop_frame m tokens df
    exact ⟨congrFun h.1 n, h.2 ▸ hn⟩
  | outputsDone m =>
    simp only [applyOp, RunningDataflow.outputs_done]
    have h := send_input_closed_events_frame df (fun p => decide (p.1 = m)) hn
    exact ⟨h.1, h.2 ▸ hn⟩
  | reload m op' =>
    simp only [applyOp, RunningDataflow.send_reload_df]
    by_cases hm : m ∈ df.subscribe_channels
    · rw [if_pos hm]
      have hne : n ≠ m := fun hh => hn (hh ▸ hm)
      exact ⟨sendEvent_channels_ne df _ hne, by simpa [sendEvent] using hn⟩
    · rw [if_neg hm]
      exact ⟨rfl, hn⟩
  | eventStreamDropped m =>
    refine ⟨rfl, fun hmem => hn ?_⟩
    exact List.mem_of_mem_erase hmem

/-- Frame property of an operation sequence. -/
theorem runOps_frame {n : NodeId} :
    ∀ (ops : List DfOp) (df : RunningDataflow), n ∉ df.subscribe_channels →
      (∀ op ∈ ops, op ≠ DfOp.subscribe n) →
      (runOps df ops).channels n = df.channels n ∧
      n ∉ (runOps df ops).subscribe_channels := by
  intro ops
  induction ops with
  | nil => intro df hn _; exact ⟨rfl, hn⟩
  | cons op rest ih =>
    intro df hn hno
    have h1 := applyOp_frame df op hn (hno op (List.mem_cons_self op rest))
    have h2 := ih (applyOp df op) h1.2 (fun x hx => hno x (List.mem_cons_of_mem op hx))
    exact ⟨h2.1.trans h1.1, h2.2⟩

/-- Claim C5 (amended): `stop_all` pushes `Stop` into every currently
subscribed channel and drops all subscriber registrations, so for a node
subscribed AT `stop_all` time the `Stop` is the last event on its channel
— no later operation that is not the node's own re-Subscribe can append to
it; and a node that subscribes after `stop_sent` is latched receives
`Stop` synchronously during Subscribe handling, as the last of its
subscribe-time events.  (The claim's stronger reading fails: a node that
re-subscribes after the stop gets a fresh registered channel, and later
events — e.g. timer inputs — are delivered after its Stop.) -/
theorem stop_semantics (df : RunningDataflow) (n : NodeId) (ops : List DfOp)
    (hn : n ∈ df.subscribe_channels) (hnd : df.subscribe_channels.Nodup)
    (hno : ∀ op ∈ ops, op ≠ DfOp.subscribe n) :
    (df.stop_all).channels n = df.channels n ++ [NodeEvent.stop] ∧
    (df.stop_all).stop_sent = true ∧
    (runOps df.stop_all ops).channels n = df.channels n ++ [NodeEvent.stop] ∧
    (∀ df' : RunningDataflow, ∀ m, df'.stop_sent = true →
      ∃ evs, (df'.handle_subscribe m).channels m = evs ++ [NodeEvent.stop]) := by
  have hstop : (df.stop_all).channels n = df.channels n ++ [NodeEvent.stop] := by
    simpa [RunningDataflow.stop_all] using stopLoop_mem n df.subscribe_channels df hnd hn
  have hout : n ∉ (df.stop_all).subscribe_channels := by
    simp [RunningDataflow.stop_all]
  refine ⟨hstop, rfl, ?_, ?_⟩
  · have h := runOps_frame ops df.stop_all hout hno
    exact h.1.trans hstop
  · intro df' m h'
    refine ⟨(closedInputsFor df' m).map NodeEvent.inputClosed ++
      (if df'.open_inputs_of m = [] then [NodeEvent.allInputsClosed] else []), ?_⟩
    rw [show (df'.handle_subscribe m).channels = (df'.subscribeNode m).channels from
      handle_subscribe_channels df' m]
    simp [RunningDataflow.subscribeNode, updF, h']

/-- Concrete dataflow for the C5 counterexample: node `n` has a timer
input and has not yet subscribed. -/
def dfC5 : RunningDataflow :=
  { RunningDataflow.new 5 with pending_nodes := ["n"],
                               timers := [(100, [("n", "t")])],
                               open_inputs := [("n", ["t"])] }

/-- Counterexample to C5 as stated: after `stop_all` has run on the
dataflow, node `n` subscribes (receiving its synchronous Stop, and
triggering `start`, which spawns the timer task) and then a timer event
delivers an `Input` AFTER the Stop — Stop is not the last event on this
subscriber's channel. -/
theorem stop_last_counterexample :
    (runOps dfC5 [DfOp.stopAll, DfOp.subscribe "n", DfOp.timerFire 100]).channels "n" =
      [NodeEvent.stop, NodeEvent.input "t" none] ∧
    (runOps dfC5 [DfOp.stopAll, DfOp.subscribe "n", DfOp.timerFire 100]).timer_tasks =
      [100] := by
  constructor <;> decide

/-- Concrete dataflow for the C5 witness: nodes `a` and `b` subscribed. -/
def dfW5 : RunningDataflow :=
  { RunningDataflow.new 50 with subscribe_channels := ["a", "b"] }

/-- Witness for C5 at `dfW5`: after `stop_all`, Stop is last on `a`'s
channel and stays last across later non-re-subscribe operations. -/
theorem stop_semantics_witness :
    (dfW5.stop_all).channels "a" = dfW5.channels "a" ++ [NodeEvent.stop] ∧
    (runOps dfW5.stop_all [DfOp.timerFire 100, DfOp.closeInput "a" "t"]).channels "a" =
      dfW5.channels "a" ++ [NodeEvent.stop] := by
  have h := stop_semantics dfW5 "a" [DfOp.timerFire 100, DfOp.closeInput "a" "t"]
    (by decide) (by decide) (by decide)
  exact ⟨h.1, h.2.2.1⟩

/- ## Claim C4: exactly-once release of drop tokens -/

theorem mapSet_self {α β : Type} [DecidableEq α] (m : α → Option β) (k : α) (v : β) :
    mapSet m k v k = some v := by simp [mapSet]

theorem mapSet_ne {α β : Type} [DecidableEq α] (m : α → Option β) {k k' : α} (v : β)
    (h : k' ≠ k) : mapSet m k v k' = m k' := by simp [mapSet, h]

theorem mapRemove_self {α β : Type} [DecidableEq α] (m : α → Option β) (k : α) :
    mapRemove m k k = none := by simp [mapRemove]

theorem mapRemove_ne {α β : Type} [DecidableEq α] (m : α → Option β) {k k' : α}
    (h : k' ≠ k) : mapRemove m k k' = m k' := by simp [mapRemove, h]

/-- Occurrences of `OutputDropped token` in a drop-channel history. -/
def countDropped (l : List NodeDropEvent) (t : DropToken) : Nat :=
  match l with
  | [] => 0
  | .outputDropped t2 :: rest => (if t2 = t then 1 else 0) + countDropped rest t

/-- How many `OutputDropped{token}` events a node's drop channel has
received. -/
def deliveredTo (df : RunningDataflow) (n : NodeId) (t : DropToken) : Nat :=
  countDropped (df.drop_hist n) t

theorem countDropped_append (l1 l2 : List NodeDropEvent) (t : DropToken) :
    countDropped (l1 ++ l2) t = countDropped l1 t + countDropped l2 t := by
  induction l1 with
  | nil => simp [countDropped]
  | cons e rest ih =>
    cases e with
    | outputDropped t2 => simp [countDropped, ih, Nat.add_assoc]

/-- The pending set accumulated by the delivery loop: receivers in `l`
whose node is in the subscribe set `S`, folded into the accumulator `P`
with set insertion. -/
def pendingAfter (S : List NodeId) (l : List InputId) (P : List NodeId) : List NodeId :=
  ((l.filter (fun p => decide (p.1 ∈ S))).map Prod.fst).foldl (fun a x => insertS x a) P

/-- The local consumers that accept a `SendOut` on `(src, o)`: the
receivers of the mapping that still have a subscribe channel, collected
into the (duplicate-free) pending set in delivery order. -/
def acceptingConsumers (df : RunningDataflow) (src : NodeId) (o : DataId) : List NodeId :=
  pendingAfter df.subscribe_channels ((lookupA df.mappings (src, o)).getD []) []

/-- Whether an operation publishes the given drop token (a `SendOut` of a
shared-memory payload carrying it). -/
def publishesTok (op : DfOp) (t : DropToken) : Bool :=
  match op with
  | .sendOut _ _ (some (Data.sharedMemory _ t2)) => t2 == t
  | _ => false

/-- Whether the operation sequence contains a `ReportDrop` from `c`
naming token `t`. -/
def reportedIn (ops : List DfOp) (c : NodeId) (t : DropToken) : Prop :=
  ∃ ts, DfOp.reportDrop c ts ∈ ops ∧ t ∈ ts

theorem reportedIn_nil (c : NodeId) (t : DropToken) : ¬ reportedIn [] c t := by
  rintro ⟨ts, hmem, _⟩
  simp at hmem

theorem reportedIn_cons (op : DfOp) (ops : List DfOp) (c : NodeId) (t : DropToken) :
    reportedIn (op :: ops) c t ↔
      (∃ ts, op = DfOp.reportDrop c ts ∧ t ∈ ts) ∨ reportedIn ops c t := by
  constructor
  · rintro ⟨ts, hmem, ht⟩
    rcases List.mem_cons.mp hmem with h | h
    · exact Or.inl ⟨ts, h.symm, ht⟩
    · exact Or.inr ⟨ts, h, ht⟩
  · rintro (⟨ts, hop, ht⟩ | ⟨ts, hmem, ht⟩)
    · exact ⟨ts, hop ▸ List.mem_cons_self op ops, ht⟩
    · exact ⟨ts, List.mem_cons_of_mem op hmem, ht⟩

theorem reportedIn_append_left {ops1 : List DfOp} (ops2 : List DfOp) {c : NodeId}
    {t : DropToken} (h : reportedIn ops1 c t) : reportedIn (ops1 ++ ops2) c t := by
  obtain ⟨ts, hmem, ht⟩ := h
  exact ⟨ts, List.mem_append_left ops2 hmem, ht⟩

/-- Drop-subsystem purity: the operation leaves the drop channels, their
histories and the pending-token table untouched. -/
def dropPure (df df' : RunningDataflow) : Prop :=
  df'.drop_channels = df.drop_channels ∧ df'.drop_hist = df.drop_hist ∧
  df'.pending_drop_tokens = df.pending_drop_tokens

theorem dropPure_refl (df : RunningDataflow) : dropPure df df := ⟨rfl, rfl, rfl⟩

theorem dropPure_trans {df1 df2 df3 : RunningDataflow} (h1 : dropPure df1 df2)
    (h2 : dropPure df2 df3) : dropPure df1 df3 :=
  ⟨h2.1.trans h1.1, h2.2.1.trans h1.2.1, h2.2.2.trans h1.2.2⟩

theorem sendEvent_dropPure (df : RunningDataflow) (n : NodeId) (ev : NodeEvent) :
    dropPure df (sendEvent df n ev) := ⟨rfl, rfl, rfl⟩

theorem stopLoop_dropPure : ∀ (l : List NodeId) (df : RunningDataflow),
    dropPure df (stopLoop l df) := by
  intro l
  induction l with
  | nil => intro df; exact dropPure_refl df
  | cons a rest ih =>
    intro df
    exact dropPure_trans (sendEvent_dropPure df a .stop) (ih (sendEvent df a .stop))

theorem stop_all_dropPure (df : RunningDataflow) : dropPure df df.stop_all := by
  have h := stopLoop_dropPure df.subscribe_channels df
  exact ⟨h.1, h.2.1, h.2.2⟩

theorem timerLoop_dropPure (interval : Nat) : ∀ (l : List InputId) (df : RunningDataflow),
    dropPure df (timerLoop interval l df) := by
  intro l
  induction l with
  | nil => intro df; exact dropPure_refl df
  | cons p rest ih =>
    intro df
    by_cases hp : p.1 ∈ df.subscribe_channels
    · simp only [timerLoop, if_pos hp]
      exact dropPure_trans (sendEvent_dropPure df p.1 _) (ih _)
    · simp only [timerLoop, if_neg hp]
      exact ih df

theorem timerFire_dropPure (df : RunningDataflow) (interval : Nat) :
    dropPure df (df.timerFire interval) := by
  unfold RunningDataflow.timerFire
  cases lookupA df.timers interval with
  | none => exact dropPure_refl df
  | some subs => exact timerLoop_dropPure interval subs df

theorem closeInputNotify_dropPure (df : RunningDataflow) (r : NodeId) (i : DataId) :
    dropPure df (closeInputNotify df r i) := by
  unfold closeInputNotify
  by_cases hr : r ∈ df.subscribe_channels
  · rw [if_pos hr]
    by_cases he : (sendEvent df r (NodeEvent.inputClosed i)).open_inputs_of r = []
    · rw [if_pos he]
      exact ⟨rfl, rfl, rfl⟩
    · rw [if_neg he]
      exact ⟨rfl, rfl, rfl⟩
  · rw [if_neg hr]
    exact dropPure_refl df

theorem close_input_dropPure (df : RunningDataflow) (r : NodeId) (i : DataId) :
    dropPure df (close_input df r i) := by
  cases hoi : lookupA df.open_inputs r with
  | none =>
    simp only [close_input, hoi]
    exact closeInputNotify_dropPure df r i
  | some s =>
    by_cases hi : i ∈ s
    · simp only [close_input, hoi, if_pos hi]
      have h := closeInputNotify_dropPure
        { df with open_inputs := setA df.open_inputs r (s.erase i) } r i
      exact ⟨h.1, h.2.1, h.2.2⟩
    · simp only [close_input, hoi, if_neg hi]
      exact dropPure_refl df

theorem closeLoop_dropPure : ∀ (l : List InputId) (df : RunningDataflow),
    dropPure df (closeLoop l df) := by
  intro l
  induction l with
  | nil => intro df; exact dropPure_refl df
  | cons p rest ih =>
    intro df
    exact dropPure_trans (close_input_dropPure df p.1 p.2) (ih (close_input df p.1 p.2))

theorem send_input_closed_events_dropPure (df : RunningDataflow) (filter : OutputId → Bool) :
    dropPure df (send_input_closed_events df filter) := by
  unfold send_input_closed_events
  have h := closeLoop_dropPure
    ((((df.mappings.filter (fun p => filter p.1)).map Prod.snd).flatten).foldl
      (fun acc p => insertS p acc) []) df
  exact ⟨h.1, h.2.1, h.2.2⟩

theorem handle_subscribe_dropPure (df : RunningDataflow) (n : NodeId) :
    dropPure df (df.handle_subscribe n) := by
  simp only [RunningDataflow.handle_subscribe]
  split_ifs with h
  · exact ⟨rfl, rfl, rfl⟩
  · exact ⟨rfl, rfl, rfl⟩

theorem send_reload_dropPure (df : RunningDataflow) (n : NodeId) (op : Option String) :
    dropPure df (df.send_reload_df n op) := by
  unfold RunningDataflow.send_reload_df
  by_cases hn : n ∈ df.subscribe_channels
  · rw [if_pos hn]
    exact ⟨rfl, rfl, rfl⟩
  · rw [if_neg hn]
    exact dropPure_refl df

theorem check_drop_token_eq (df : RunningDataflow) (t2 : DropToken) :
    df.check_drop_token t2 =
      match df.pending_drop_tokens t2 with
      | none => df
      | some info =>
        if info.pending_nodes = [] then
          if info.owner ∈ df.drop_channels then
            { df with pending_drop_tokens := mapRemove df.pending_drop_tokens t2,
                      drop_hist := updF df.drop_hist info.owner
                        (df.drop_hist info.owner ++ [NodeDropEvent.outputDropped t2]) }
          else { df with pending_drop_tokens := mapRemove df.pending_drop_tokens t2 }
        else df := by
  unfold RunningDataflow.check_drop_token
  cases df.pending_drop_tokens t2 with
  | none => rfl
  | some info => dsimp only

theorem countDropped_single_ne {t2 t : DropToken} (hne : t2 ≠ t)
    (l : List NodeDropEvent) :
    countDropped (l ++ [NodeDropEvent.outputDropped t2]) t = countDropped l t := by
  rw [countDropped_append]
  simp [countDropped, hne]

theorem check_drop_token_view_ne (df : RunningDataflow) (t2 : DropToken) {t : DropToken}
    (hne : t ≠ t2) :
    (df.check_drop_token t2).pending_drop_tokens t = df.pending_drop_tokens t ∧
    (df.check_drop_token t2).drop_channels = df.drop_channels ∧
    ∀ nd, countDropped ((df.check_drop_token t2).drop_hist nd) t =
      countDropped (df.drop_hist nd) t := by
  rw [check_drop_token_eq]
  cases h : df.pending_drop_tokens t2 with
  | none => exact ⟨rfl, rfl, fun _ => rfl⟩
  | some info =>
    dsimp only
    by_cases hp : info.pending_nodes = []
    · rw [if_pos hp]
      by_cases ho : info.owner ∈ df.drop_channels
      · rw [if_pos ho]
        refine ⟨mapRemove_ne _ hne, rfl, ?_⟩
        intro nd
        by_cases hnd : nd = info.owner
        · subst hnd
          simp only [updF, if_pos rfl]
          exact countDropped_single_ne (fun hh => hne hh.symm) _
        · simp [updF, hnd]
      · rw [if_neg ho]
        exact ⟨mapRemove_ne _ hne, rfl, fun _ => rfl⟩
    · rw [if_neg hp]
      exact ⟨rfl, rfl, fun _ => rfl⟩

theorem reportDropOne_view_ne (df : RunningDataflow) (m : NodeId) (t2 : DropToken)
    {t : DropToken} (hne : t ≠ t2) :
    (reportDropOne df m t2).pending_drop_tokens t = df.pending_drop_tokens t ∧
    (reportDropOne df m t2).drop_channels = df.drop_channels ∧
    ∀ nd, countDropped ((reportDropOne df m t2).drop_hist nd) t =
      countDropped (df.drop_hist nd) t := by
  cases h : df.pending_drop_tokens t2 with
  | none => simp [reportDropOne, h]
  | some info =>
    by_cases hm : m ∈ info.pending_nodes
    · simp only [reportDropOne, h, if_pos hm]
      refine ⟨?_, ?_, ?_⟩
      · exact ((check_drop_token_view_ne _ t2 hne).1).trans (mapSet_ne _ _ hne)
      · exact (check_drop_token_view_ne _ t2 hne).2.1
      · intro nd
        exact (check_drop_token_view_ne _ t2 hne).2.2 nd
    · have heq : reportDropOne df m t2 = df := by
        simp [reportDropOne, h, hm]
      rw [heq]
      exact ⟨rfl, rfl, fun _ => rfl⟩

theorem reportDropOne_fresh (df : RunningDataflow) (m : NodeId) (t : DropToken)
    (h : df.pending_drop_tokens t = none) : reportDropOne df m t = df := by
  simp [reportDropOne, h]

theorem deliverStep_dropView (src : NodeId) (data : Option Data) (df : RunningDataflow)
    (p : InputId) :
    (deliverStep src data df p).drop_channels = df.drop_channels ∧
    (deliverStep src data df p).drop_hist = df.drop_hist ∧
    (deliverStep src data df p).subscribe_channels = df.subscribe_channels ∧
    ∀ t, data.bind Data.dropTokenOf ≠ some t →
      (deliverStep src data df p).pending_drop_tokens t = df.pending_drop_tokens t := by
  unfold deliverStep
  by_cases hp : p.1 ∈ df.subscribe_channels
  · rw [if_pos hp]
    cases hd : data.bind Data.dropTokenOf with
    | none => exact ⟨rfl, rfl, rfl, fun _ _ => rfl⟩
    | some t2 =>
      refine ⟨rfl, rfl, rfl, ?_⟩
      intro t ht
      have hne : t ≠ t2 := fun hh => ht (hh ▸ rfl)
      exact mapSet_ne _ _ hne
  · rw [if_neg hp]
    exact ⟨rfl, rfl, rfl, fun _ _ => rfl⟩

theorem deliverLoop_dropView (src : NodeId) (data : Option Data) :
    ∀ (l : List InputId) (df : RunningDataflow),
      (deliverLoop src data l df).drop_channels = df.drop_channels ∧
      (deliverLoop src data l df).drop_hist = df.drop_hist ∧
      (deliverLoop src data l df).subscribe_channels = df.subscribe_channels ∧
      ∀ t, data.bind Data.dropTokenOf ≠ some t →
        (deliverLoop src data l df).pending_drop_tokens t = df.pending_drop_tokens t := by
  intro l
  induction l with
  | nil => intro df; exact ⟨rfl, rfl, rfl, fun _ _ => rfl⟩
  | cons p rest ih =>
    intro df
    have h1 := deliverStep_dropView src data df p
    have h2 := ih (deliverStep src data df p)
    exact ⟨h2.1.trans h1.1, h2.2.1.trans h1.2.1, h2.2.2.1.trans h1.2.2.1,
      fun t ht => (h2.2.2.2 t ht).trans (h1.2.2.2 t ht)⟩


theorem foldl_insertS_nodup {α : Type} [DecidableEq α] :
    ∀ (cs : List α) (acc : List α), acc.Nodup →
      (cs.foldl (fun a x => insertS x a) acc).Nodup := by
  intro cs
  induction cs with
  | nil => intro acc h; exact h
  | cons c rest ih =>
    intro acc h
    exact ih (insertS c acc) (nodup_insertS c h)

theorem pendingAfter_nil (S : List NodeId) (P : List NodeId) :
    pendingAfter S [] P = P := rfl

theorem pendingAfter_cons_pos (S : List NodeId) {p : InputId} (l : List InputId)
    (P : List NodeId) (hp : p.1 ∈ S) :
    pendingAfter S (p :: l) P = pendingAfter S l (insertS p.1 P) := by
  unfold pendingAfter
  rw [List.filter_cons_of_pos (by simpa using hp)]
  rfl

theorem pendingAfter_cons_neg (S : List NodeId) {p : InputId} (l : List InputId)
    (P : List NodeId) (hp : p.1 ∉ S) :
    pendingAfter S (p :: l) P = pendingAfter S l P := by
  unfold pendingAfter
  rw [List.filter_cons_of_neg (by simpa using hp)]

theorem pendingAfter_nodup (S : List NodeId) (l : List InputId) {P : List NodeId}
    (h : P.Nodup) : (pendingAfter S l P).Nodup :=
  foldl_insertS_nodup _ P h

theorem deliverLoop_token_pending (src : NodeId) (len : Nat) (t : DropToken)
    (S : List NodeId) :
    ∀ (l : List InputId) (df : RunningDataflow) (P : List NodeId),
      df.subscribe_channels = S →
      (df.pending_drop_tokens t = some { owner := src, pending_nodes := P } ∨
        (df.pending_drop_tokens t = none ∧ P = [])) →
      ((deliverLoop src (some (Data.sharedMemory len t)) l df).pending_drop_tokens t =
          some { owner := src, pending_nodes := pendingAfter S l P } ∨
        ((deliverLoop src (some (Data.sharedMemory len t)) l df).pending_drop_tokens t =
            none ∧ pendingAfter S l P = [])) := by
  intro l
  induction l with
  | nil =>
    intro df P hS h
    simpa [deliverLoop, pendingAfter_nil] using h
  | cons p rest ih =>
    intro df P hS h
    by_cases hp : p.1 ∈ df.subscribe_channels
    · have hstep : (deliverStep src (some (Data.sharedMemory len t)) df p).pending_drop_tokens
          t = some { owner := src, pending_nodes := insertS p.1 P } := by
        unfold deliverStep
        rw [if_pos hp]
        rcases h with h1 | ⟨h1, hP⟩
        · simp [sendEvent, mapSet, Data.dropTokenOf, h1]
        · subst hP
          simp [sendEvent, mapSet, Data.dropTokenOf, h1]
      have hsub : (deliverStep src (some (Data.sharedMemory len t)) df p).subscribe_channels
          = S := (deliverStep_dropView src _ df p).2.2.1.trans hS
      have hrest := ih (deliverStep src (some (Data.sharedMemory len t)) df p)
        (insertS p.1 P) hsub (Or.inl hstep)
      rw [show deliverLoop src (some (Data.sharedMemory len t)) (p :: rest) df =
        deliverLoop src (some (Data.sharedMemory len t)) rest
          (deliverStep src (some (Data.sharedMemory len t)) df p) from rfl,
        pendingAfter_cons_pos S rest P (hS ▸ hp)]
      exact hrest
    · have hstep : deliverStep src (some (Data.sharedMemory len t)) df p = df := by
        unfold deliverStep
        rw [if_neg hp]
      rw [show deliverLoop src (some (Data.sharedMemory len t)) (p :: rest) df =
        deliverLoop src (some (Data.sharedMemory len t)) rest
          (deliverStep src (some (Data.sharedMemory len t)) df p) from rfl, hstep,
        pendingAfter_cons_neg S rest P (hS ▸ hp)]
      exact ih df P hS h

/-- The release invariant of one published drop token: the owner keeps a
drop channel and either the token entry is still pending (held only by
accepting consumers that have not reported, with nothing delivered) or it
has been released exactly once after every accepting consumer reported. -/
def C4Inv (ow : NodeId) (C : List NodeId) (t : DropToken) (rep : NodeId → Prop)
    (df : RunningDataflow) : Prop :=
  ow ∈ df.drop_channels ∧
  ((∃ P, df.pending_drop_tokens t = some { owner := ow, pending_nodes := P } ∧ P ≠ [] ∧
      P.Nodup ∧ (∀ c, c ∈ P → c ∈ C) ∧ (∀ c, c ∈ P → ¬ rep c) ∧
      (∀ c, c ∈ C → c ∉ P → rep c) ∧ deliveredTo df ow t = 0) ∨
   (df.pending_drop_tokens t = none ∧ deliveredTo df ow t = 1 ∧ ∀ c, c ∈ C → rep c))

theorem C4Inv_iff {ow : NodeId} {C : List NodeId} {t : DropToken}
    {rep rep' : NodeId → Prop} {df : RunningDataflow}
    (hiff : ∀ c, rep c ↔ rep' c) (h : C4Inv ow C t rep df) : C4Inv ow C t rep' df := by
  obtain ⟨hch, h⟩ := h
  refine ⟨hch, ?_⟩
  rcases h with ⟨P, h1, h2, h3, h4, h5, h6, h7⟩ | ⟨h1, h2, h3⟩
  · exact Or.inl ⟨P, h1, h2, h3, h4, fun c hc hr => h5 c hc ((hiff c).mpr hr),
      fun c hc hnp => (hiff c).mp (h6 c hc hnp), h7⟩
  · exact Or.inr ⟨h1, h2, fun c hc => (hiff c).mp (h3 c hc)⟩

/-- A drop-view-preserving operation preserves the invariant. -/
theorem C4Inv_view {ow : NodeId} {C : List NodeId} {t : DropToken} {rep : NodeId → Prop}
    {df df' : RunningDataflow}
    (hch : ow ∈ df'.drop_channels ↔ ow ∈ df.drop_channels)
    (hpend : df'.pending_drop_tokens t = df.pending_drop_tokens t)
    (hcnt : deliveredTo df' ow t = deliveredTo df ow t)
    (h : C4Inv ow C t rep df) : C4Inv ow C t rep df' := by
  obtain ⟨h0, h⟩ := h
  refine ⟨hch.mpr h0, ?_⟩
  rcases h with ⟨P, h1, h2, h3, h4, h5, h6, h7⟩ | ⟨h1, h2, h3⟩
  · exact Or.inl ⟨P, hpend.trans h1, h2, h3, h4, h5, h6, hcnt.trans h7⟩
  · exact Or.inr ⟨hpend.trans h1, hcnt.trans h2, h3⟩

theorem C4Inv_dropPure {ow : NodeId} {C : List NodeId} {t : DropToken}
    {rep : NodeId → Prop} {df df' : RunningDataflow} (hp : dropPure df df')
    (h : C4Inv ow C t rep df) : C4Inv ow C t rep df' :=
  C4Inv_view (by rw [hp.1]) (by rw [hp.2.2]) (by unfold deliveredTo; rw [hp.2.1]) h

theorem send_output_shared_eq (df : RunningDataflow) (src : NodeId) (o : DataId)
    (len : Nat) (t : DropToken) :
    send_output_to_local_receivers df src o (some (Data.sharedMemory len t)) =
      (let dl := deliverLoop src (some (Data.sharedMemory len t))
        ((lookupA df.mappings (src, o)).getD []) df
       let info :=
        match dl.pending_drop_tokens t with
        | some info => info
        | none => { owner := src, pending_nodes := [] }
       RunningDataflow.check_drop_token
        { dl with pending_drop_tokens := mapSet dl.pending_drop_tokens t info } t) := rfl

/-- Publishing a shared-memory payload with a fresh token establishes the
invariant: the pending set is populated with exactly the accepting local
consumers, and when there are none the token is released immediately. -/
theorem publish_establish (df : RunningDataflow) (src : NodeId) (o : DataId) (len : Nat)
    (t : DropToken)
    (hfresh : df.pending_drop_tokens t = none)
    (hch : src ∈ df.drop_channels)
    (hcnt : deliveredTo df src t = 0) :
    C4Inv src (acceptingConsumers df src o) t (fun _ => False)
      (send_output_to_local_receivers df src o (some (Data.sharedMemory len t))) := by
  have hview := deliverLoop_dropView src (some (Data.sharedMemory len t))
    ((lookupA df.mappings (src, o)).getD []) df
  have hpend := deliverLoop_token_pending src len t df.subscribe_channels
    ((lookupA df.mappings (src, o)).getD []) df [] rfl (Or.inr ⟨hfresh, rfl⟩)
  rw [send_output_shared_eq]
  dsimp only
  rcases hpend with hA | ⟨hA, hAnil⟩
  · rw [hA]
    dsimp only
    by_cases hAe : acceptingConsumers df src o = []
    · have hAe2 : pendingAfter df.subscribe_channels
          ((lookupA df.mappings (src, o)).getD []) [] = [] := hAe
      rw [check_drop_token_eq]
      dsimp only
      rw [mapSet_self]
      dsimp only
      rw [if_pos hAe2, if_pos (hview.1.symm ▸ hch)]
      refine ⟨hview.1.symm ▸ hch, Or.inr ⟨mapRemove_self _ _, ?_, ?_⟩⟩
      · unfold deliveredTo
        dsimp only [updF]
        rw [if_pos rfl, countDropped_append, hview.2.1]
        unfold deliveredTo at hcnt
        rw [hcnt]
        simp [countDropped]
      · intro c hc
        rw [show acceptingConsumers df src o = pendingAfter df.subscribe_channels
          ((lookupA df.mappings (src, o)).getD []) [] from rfl] at hAe
        rw [show acceptingConsumers df src o = pendingAfter df.subscribe_channels
          ((lookupA df.mappings (src, o)).getD []) [] from rfl, hAe] at hc
        simp at hc
    · have hAe2 : ¬ pendingAfter df.subscribe_channels
          ((lookupA df.mappings (src, o)).getD []) [] = [] := hAe
      rw [check_drop_token_eq]
      dsimp only
      rw [mapSet_self]
      dsimp only
      rw [if_neg hAe2]
      refine ⟨hview.1.symm ▸ hch, Or.inl ⟨acceptingConsumers df src o, mapSet_self _ _ _,
        hAe, pendingAfter_nodup _ _ List.nodup_nil, fun c hc => hc,
        fun c _ hf => hf, fun c hc hnc => absurd hc hnc, ?_⟩⟩
      unfold deliveredTo
      dsimp only
      rw [hview.2.1]
      exact hcnt
  · rw [hA]
    dsimp only
    rw [check_drop_token_eq]
    dsimp only
    rw [mapSet_self]
    dsimp only
    rw [if_pos rfl, if_pos (hview.1.symm ▸ hch)]
    refine ⟨hview.1.symm ▸ hch, Or.inr ⟨mapRemove_self _ _, ?_, ?_⟩⟩
    · unfold deliveredTo
      dsimp only [updF]
      rw [if_pos rfl, countDropped_append, hview.2.1]
      unfold deliveredTo at hcnt
      rw [hcnt]
      simp [countDropped]
    · intro c hc
      rw [show acceptingConsumers df src o = pendingAfter df.subscribe_channels
        ((lookupA df.mappings (src, o)).getD []) [] from rfl, hAnil] at hc
      simp at hc

theorem C4Inv_reportDropOne_self {ow : NodeId} {C : List NodeId} {t : DropToken}
    {rep : NodeId → Prop} {df : RunningDataflow} (n : NodeId)
    (h : C4Inv ow C t rep df) :
    C4Inv ow C t (fun c => rep c ∨ c = n) (reportDropOne df n t) := by
  obtain ⟨hch, hbody⟩ := h
  rcases hbody with ⟨P, h1, h2, h3, h4, h5, h6, h7⟩ | ⟨h1, h2, h3⟩
  · by_cases hm : n ∈ P
    · have hred : reportDropOne df n t =
          RunningDataflow.check_drop_token
            { df with pending_drop_tokens := mapSet df.pending_drop_tokens t (DropTokenInformation.mk ow (P.erase n)) } t := by
        simp [reportDropOne, h1, hm]
      rw [hred]
      by_cases hPe : P.erase n = []
      · rw [check_drop_token_eq]
        dsimp only
        rw [mapSet_self]
        dsimp only
        rw [if_pos hPe, if_pos hch]
        refine ⟨hch, Or.inr ⟨mapRemove_self _ _, ?_, ?_⟩⟩
        · unfold deliveredTo
          dsimp only [updF]
          rw [if_pos rfl, countDropped_append]
          unfold deliveredTo at h7
          rw [h7]
          simp [countDropped]
        · intro c hc
          by_cases hcP : c ∈ P
          · right
            by_contra hcn
            exact absurd (hPe ▸ (List.mem_erase_of_ne hcn).mpr hcP) (List.not_mem_nil c)
          · exact Or.inl (h6 c hc hcP)
      · rw [check_drop_token_eq]
        dsimp only
        rw [mapSet_self]
        dsimp only
        rw [if_neg hPe]
        refine ⟨hch, Or.inl ⟨P.erase n, mapSet_self _ _ _, hPe, h3.erase n, ?_, ?_, ?_, h7⟩⟩
        · intro c hc
          exact h4 c (List.mem_of_mem_erase hc)
        · intro c hc
          rintro (hr | rfl)
          · exact h5 c (List.mem_of_mem_erase hc) hr
          · exact ((h3.mem_erase_iff).mp hc).1 rfl
        · intro c hc hne
          by_cases hcP : c ∈ P
          · right
            by_contra hcn
            exact hne ((h3.mem_erase_iff).mpr ⟨hcn, hcP⟩)
          · exact Or.inl (h6 c hc hcP)
    · have hred : reportDropOne df n t = df := by
        simp [reportDropOne, h1, hm]
      rw [hred]
      refine ⟨hch, Or.inl ⟨P, h1, h2, h3, h4, ?_, ?_, h7⟩⟩
      · intro c hc
        rintro (hr | rfl)
        · exact h5 c hc hr
        · exact hm hc
      · intro c hc hnp
        exact Or.inl (h6 c hc hnp)
  · rw [reportDropOne_fresh df n t h1]
    exact ⟨hch, Or.inr ⟨h1, h2, fun c hc => Or.inl (h3 c hc)⟩⟩

theorem C4Inv_report_drop (ow : NodeId) (C : List NodeId) (t : DropToken) (n : NodeId) :
    ∀ (ts : List DropToken) (rep : NodeId → Prop) (df : RunningDataflow),
      C4Inv ow C t rep df →
      C4Inv ow C t (fun c => rep c ∨ (c = n ∧ t ∈ ts)) (df.report_drop n ts) := by
  intro ts
  induction ts with
  | nil =>
    intro rep df h
    refine C4Inv_iff (fun c => ?_) h
    simp
  | cons t2 rest ih =>
    intro rep df h
    by_cases ht : t2 = t
    · subst ht
      have h1 := C4Inv_reportDropOne_self n h
      have h2 := ih (fun c => rep c ∨ c = n) (reportDropOne df n t2) h1
      refine C4Inv_iff (fun c => ?_) h2
      constructor
      · rintro ((hr | rfl) | ⟨rfl, hmem⟩)
        · exact Or.inl hr
        · exact Or.inr ⟨rfl, List.mem_cons_self t2 rest⟩
        · exact Or.inr ⟨rfl, List.mem_cons_of_mem t2 hmem⟩
      · rintro (hr | ⟨rfl, _⟩)
        · exact Or.inl (Or.inl hr)
        · exact Or.inl (Or.inr rfl)
    · have hne : t ≠ t2 := fun hh => ht hh.symm
      have hv := reportDropOne_view_ne df n t2 hne
      have h1 : C4Inv ow C t rep (reportDropOne df n t2) :=
        C4Inv_view (by rw [hv.2.1]) hv.1 (hv.2.2 ow) h
      have h2 := ih rep (reportDropOne df n t2) h1
      refine C4Inv_iff (fun c => ?_) h2
      constructor
      · rintro (hr | ⟨rfl, hmem⟩)
        · exact Or.inl hr
        · exact Or.inr ⟨rfl, List.mem_cons_of_mem t2 hmem⟩
      · rintro (hr | ⟨rfl, hmem⟩)
        · exact Or.inl hr
        · rcases List.mem_cons.mp hmem with h3 | h3
          · exact absurd h3.symm (fun hh => ht hh)
          · exact Or.inr ⟨rfl, h3⟩

theorem send_output_view_ne (df : RunningDataflow) (s : NodeId) (o : DataId)
    (data : Option Data) {t : DropToken} (hnd : data.bind Data.dropTokenOf ≠ some t) :
    (send_output_to_local_receivers df s o data).drop_channels = df.drop_channels ∧
    (send_output_to_local_receivers df s o data).pending_drop_tokens t =
      df.pending_drop_tokens t ∧
    ∀ nd, countDropped ((send_output_to_local_receivers df s o data).drop_hist nd) t =
      countDropped (df.drop_hist nd) t := by
  have hdl := deliverLoop_dropView s data ((lookupA df.mappings (s, o)).getD []) df
  cases hdt : data.bind Data.dropTokenOf with
  | none =>
    simp only [send_output_to_local_receivers, hdt]
    exact ⟨hdl.1, hdl.2.2.2 t hnd, fun nd => by rw [hdl.2.1]⟩
  | some t2 =>
    have hne : t ≠ t2 := fun hh => hnd (hh ▸ hdt)
    simp only [send_output_to_local_receivers, hdt]
    refine ⟨?_, ?_, ?_⟩
    · exact ((check_drop_token_view_ne _ t2 hne).2.1).trans hdl.1
    · exact (((check_drop_token_view_ne _ t2 hne).1).trans (mapSet_ne _ _ hne)).trans
        (hdl.2.2.2 t hnd)
    · intro nd
      refine ((check_drop_token_view_ne _ t2 hne).2.2 nd).trans ?_
      rw [hdl.2.1]

/-- The reports predicate after handling one operation. -/
def repAfter (rep : NodeId → Prop) (op : DfOp) (t : DropToken) : NodeId → Prop :=
  match op with
  | DfOp.reportDrop n ts => fun c => rep c ∨ (c = n ∧ t ∈ ts)
  | _ => rep

theorem repAfter_iff (rep : NodeId → Prop) (op : DfOp) (t : DropToken) (c : NodeId) :
    repAfter rep op t c ↔ rep c ∨ (∃ ts, op = DfOp.reportDrop c ts ∧ t ∈ ts) := by
  cases op with
  | reportDrop n ts =>
    simp only [repAfter]
    constructor
    · rintro (hr | ⟨rfl, ht⟩)
      · exact Or.inl hr
      · exact Or.inr ⟨ts, rfl, ht⟩
    · rintro (hr | ⟨ts2, heq, ht⟩)
      · exact Or.inl hr
      · cases heq
        exact Or.inr ⟨rfl, ht⟩
  | subscribe n => simp [repAfter]
  | subscribeDrop n => simp [repAfter]
  | stopAll => simp [repAfter]
  | timerFire i => simp [repAfter]
  | closeInput r i => simp [repAfter]
  | sendOut s o d => simp [repAfter]
  | outputsDone n => simp [repAfter]
  | reload n o2 => simp [repAfter]
  | eventStreamDropped n => simp [repAfter]

/-- One good operation (not publishing the token, not dropping or
resetting the owner's drop channel) preserves the release invariant,
extending the reports predicate by the operation's own reports. -/
theorem C4Inv_applyOp (ow : NodeId) (C : List NodeId) (t : DropToken)
    (rep : NodeId → Prop) (df : RunningDataflow) (op : DfOp)
    (h : C4Inv ow C t rep df)
    (hpub : publishesTok op t = false)
    (hsd : op ≠ DfOp.subscribeDrop ow)
    (hod : op ≠ DfOp.outputsDone ow) :
    C4Inv ow C t (repAfter rep op t) (applyOp df op) := by
  cases op with
  | subscribe m => exact C4Inv_dropPure (handle_subscribe_dropPure df m) h
  | subscribeDrop m =>
    have hm : ow ≠ m := fun hh => hsd (by rw [hh])
    have hch : ow ∈ insertS m df.drop_channels ↔ ow ∈ df.drop_channels := by
      constructor
      · intro hmem
        rcases mem_insertS.mp hmem with hh | hh
        · exact absurd hh hm
        · exact hh
      · exact mem_insertS_of_mem m
    have hcnt : countDropped (updF df.drop_hist m [] ow) t
        = countDropped (df.drop_hist ow) t := by
      simp [updF, hm]
    exact C4Inv_view hch rfl hcnt h
  | stopAll => exact C4Inv_dropPure (stop_all_dropPure df) h
  | timerFire i => exact C4Inv_dropPure (timerFire_dropPure df i) h
  | closeInput r i => exact C4Inv_dropPure (close_input_dropPure df r i) h
  | sendOut s o data =>
    have hnd : data.bind Data.dropTokenOf ≠ some t := by
      cases data with
      | none => simp
      | some d =>
        cases d with
        | vec v => simp [Data.dropTokenOf]
        | sharedMemory len t2 =>
          simp only [publishesTok] at hpub
          have ht2 : t2 ≠ t := by
            intro hh
            rw [hh] at hpub
            simp at hpub
          simp [Data.dropTokenOf]
          exact ht2
    have hv := send_output_view_ne df s o data hnd
    have hch : ow ∈ (send_output_to_local_receivers df s o data).drop_channels
        ↔ ow ∈ df.drop_channels := by rw [hv.1]
    exact C4Inv_view hch hv.2.1 (hv.2.2 ow) h
  | reportDrop n ts => exact C4Inv_report_drop ow C t n ts rep df h
  | outputsDone m =>
    have hm : ow ≠ m := fun hh => hod (by rw [hh])
    have hp := send_input_closed_events_dropPure df (fun p => decide (p.1 = m))
    refine C4Inv_view ?_ ?_ ?_ h
    · show ow ∈ (send_input_closed_events df (fun p => decide (p.1 = m))).drop_channels.erase m
        ↔ ow ∈ df.drop_channels
      rw [hp.1]
      exact List.mem_erase_of_ne hm
    · show (send_input_closed_events df (fun p => decide (p.1 = m))).pending_drop_tokens t
        = df.pending_drop_tokens t
      rw [hp.2.2]
    · show countDropped ((send_input_closed_events df
        (fun p => decide (p.1 = m))).drop_hist ow) t = countDropped (df.drop_hist ow) t
      rw [hp.2.1]
  | reload m o2 => exact C4Inv_dropPure (send_reload_dropPure df m o2) h
  | eventStreamDropped m => exact C4Inv_view Iff.rfl rfl rfl h

/-- A good operation sequence preserves the release invariant, growing
the reports predicate by exactly the reports in the sequence. -/
theorem C4Inv_runOps (ow : NodeId) (C : List NodeId) (t : DropToken) :
    ∀ (ops : List DfOp) (rep : NodeId → Prop) (df : RunningDataflow),
      C4Inv ow C t rep df →
      (∀ op ∈ ops, publishesTok op t = false ∧ op ≠ DfOp.subscribeDrop ow ∧
        op ≠ DfOp.outputsDone ow) →
      C4Inv ow C t (fun c => rep c ∨ reportedIn ops c t) (runOps df ops) := by
  intro ops
  induction ops with
  | nil =>
    intro rep df h _
    refine C4Inv_iff (fun c => ?_) h
    exact ⟨Or.inl, fun hh => hh.elim id (fun hr => absurd hr (reportedIn_nil c t))⟩
  | cons op rest ih =>
    intro rep df h hgood
    have hop := hgood op (List.mem_cons_self op rest)
    have h1 := C4Inv_applyOp ow C t rep df op h hop.1 hop.2.1 hop.2.2
    have h2 := ih (repAfter rep op t) (applyOp df op) h1
      (fun x hx => hgood x (List.mem_cons_of_mem op hx))
    refine C4Inv_iff (fun c => ?_) h2
    rw [reportedIn_cons, repAfter_iff]
    exact or_assoc

/-- Reports on a token that is not registered never release anything:
the entry stays absent and no `OutputDropped` for the token is appended
to any drop channel. -/
theorem report_drop_fresh_view (t : DropToken) (m : NodeId) :
    ∀ (ts : List DropToken) (dfx : RunningDataflow), dfx.pending_drop_tokens t = none →
      (dfx.report_drop m ts).pending_drop_tokens t = none ∧
      ∀ nd, countDropped ((dfx.report_drop m ts).drop_hist nd) t =
        countDropped (dfx.drop_hist nd) t := by
  intro ts
  induction ts with
  | nil => intro dfx h0; exact ⟨h0, fun _ => rfl⟩
  | cons t2 rest ih =>
    intro dfx h0
    by_cases ht : t2 = t
    · subst ht
      rw [show dfx.report_drop m (t2 :: rest) =
        (reportDropOne dfx m t2).report_drop m rest from rfl, reportDropOne_fresh dfx m t2 h0]
      exact ih dfx h0
    · have hne : t ≠ t2 := fun hh => ht hh.symm
      have hv := reportDropOne_view_ne dfx m t2 hne
      have h0s : (reportDropOne dfx m t2).pending_drop_tokens t = none := hv.1.trans h0
      have hrest := ih (reportDropOne dfx m t2) h0s
      exact ⟨hrest.1, fun nd => (hrest.2 nd).trans (hv.2.2 nd)⟩

/-- Claim C4: for a published drop token `t` (registered by the owner's
`SendOut` of a shared-memory payload), after an operation sequence in
which the token is not re-published, the owner keeps its drop channel,
and every accepting local consumer reports the drop, the owner has
received exactly one `OutputDropped{t}` on its drop channel and the
`pending_drop_tokens` entry has been removed; on every prefix in which
some accepting consumer has not yet reported, nothing has been delivered;
further good operations never produce a second `OutputDropped{t}`; and
`ReportDrop`s arriving before the token is registered neither create an
entry nor deliver anything. -/
theorem drop_token_exactly_once (df : RunningDataflow) (src : NodeId) (o : DataId)
    (len : Nat) (t : DropToken) (ops : List DfOp)
    (hfresh : df.pending_drop_tokens t = none)
    (hch : src ∈ df.drop_channels)
    (hcnt : deliveredTo df src t = 0)
    (hgood : ∀ op ∈ ops, publishesTok op t = false ∧ op ≠ DfOp.subscribeDrop src ∧
      op ≠ DfOp.outputsDone src)
    (hrep : ∀ c ∈ acceptingConsumers df src o, reportedIn ops c t) :
    deliveredTo (runOps (send_output_to_local_receivers df src o
        (some (Data.sharedMemory len t))) ops) src t = 1 ∧
    (runOps (send_output_to_local_receivers df src o
        (some (Data.sharedMemory len t))) ops).pending_drop_tokens t = none ∧
    (∀ pre suf, ops = pre ++ suf →
      (∃ c, c ∈ acceptingConsumers df src o ∧ ¬ reportedIn pre c t) →
      deliveredTo (runOps (send_output_to_local_receivers df src o
        (some (Data.sharedMemory len t))) pre) src t = 0) ∧
    (∀ ops2, (∀ op ∈ ops2, publishesTok op t = false ∧ op ≠ DfOp.subscribeDrop src ∧
        op ≠ DfOp.outputsDone src) →
      deliveredTo (runOps (runOps (send_output_to_local_receivers df src o
        (some (Data.sharedMemory len t))) ops) ops2) src t = 1) ∧
    (∀ m ts, (df.report_drop m ts).pending_drop_tokens t = none ∧
      deliveredTo (df.report_drop m ts) src t = 0) := by
  have h0 := publish_establish df src o len t hfresh hch hcnt
  have hmain := C4Inv_runOps src (acceptingConsumers df src o) t ops (fun _ => False)
    (send_output_to_local_receivers df src o (some (Data.sharedMemory len t))) h0 hgood
  have hrel : (runOps (send_output_to_local_receivers df src o
      (some (Data.sharedMemory len t))) ops).pending_drop_tokens t = none ∧
      deliveredTo (runOps (send_output_to_local_receivers df src o
        (some (Data.sharedMemory len t))) ops) src t = 1 := by
    obtain ⟨-, hinv⟩ := hmain
    rcases hinv with ⟨P, h1, h2, h3, h4, h5, h6, h7⟩ | ⟨h1, h2, h3⟩
    · obtain ⟨c, hcP⟩ := List.exists_mem_of_ne_nil P h2
      exact absurd (Or.inr (hrep c (h4 c hcP))) (h5 c hcP)
    · exact ⟨h1, h2⟩
  refine ⟨hrel.2, hrel.1, ?_, ?_, ?_⟩
  · rintro pre suf hps ⟨c, hcC, hcnr⟩
    have hgoodpre : ∀ op ∈ pre, publishesTok op t = false ∧ op ≠ DfOp.subscribeDrop src ∧
        op ≠ DfOp.outputsDone src := by
      intro op hop
      exact hgood op (hps ▸ List.mem_append_left suf hop)
    have hpre := C4Inv_runOps src (acceptingConsumers df src o) t pre (fun _ => False)
      (send_output_to_local_receivers df src o (some (Data.sharedMemory len t))) h0 hgoodpre
    obtain ⟨-, hinv⟩ := hpre
    rcases hinv with ⟨P, h1, h2, h3, h4, h5, h6, h7⟩ | ⟨h1, h2, h3⟩
    · exact h7
    · rcases h3 c hcC with hF | hR
      · exact hF.elim
      · exact absurd hR hcnr
  · intro ops2 hgood2
    have h2 := C4Inv_runOps src (acceptingConsumers df src o) t ops2
      (fun c => False ∨ reportedIn ops c t)
      (runOps (send_output_to_local_receivers df src o
        (some (Data.sharedMemory len t))) ops) hmain hgood2
    obtain ⟨-, hinv⟩ := h2
    rcases hinv with ⟨P, h1, hne, h3, h4, h5, h6, h7⟩ | ⟨h1, hc1, h3⟩
    · obtain ⟨c, hcP⟩ := List.exists_mem_of_ne_nil P hne
      exact absurd (Or.inl (Or.inr (hrep c (h4 c hcP)))) (h5 c hcP)
    · exact hc1
  · intro m ts
    have hv := report_drop_fresh_view t m ts df hfresh
    exact ⟨hv.1, (hv.2 src).trans hcnt⟩

/-- A concrete dataflow for the drop-token scenario: owner `A` with a
drop channel, output `x` mapped to consumers `B` and `C`, both
subscribed. -/
def dfW4 : RunningDataflow :=
  { RunningDataflow.new 1 with
      subscribe_channels := ["B", "C"],
      drop_channels := ["A"],
      mappings := [(("A", "x"), [("B", "in"), ("C", "in")])] }

/-- The operation sequence for the witness: both consumers report the
token. -/
def opsW4 : List DfOp := [DfOp.reportDrop "B" [7], DfOp.reportDrop "C" [7]]

/-- Witness for `drop_token_exactly_once`: token 7 published by `A` on
output `x`, reported by both accepting consumers. -/
theorem drop_token_exactly_once_witness :
    deliveredTo (runOps (send_output_to_local_receivers dfW4 "A" "x"
      (some (Data.sharedMemory 5 7))) opsW4) "A" 7 = 1 ∧
    (runOps (send_output_to_local_receivers dfW4 "A" "x"
      (some (Data.sharedMemory 5 7))) opsW4).pending_drop_tokens 7 = none := by
  have hrep : ∀ c ∈ acceptingConsumers dfW4 "A" "x", reportedIn opsW4 c 7 := by
    intro c hc
    have hac : acceptingConsumers dfW4 "A" "x" = ["B", "C"] := by decide
    rw [hac] at hc
    rcases List.mem_cons.mp hc with rfl | hc2
    · exact ⟨[7], List.mem_cons_self _ _, by decide⟩
    · rcases List.mem_cons.mp hc2 with rfl | hc3
      · exact ⟨[7], List.mem_cons_of_mem _ (List.mem_cons_self _ _), by decide⟩
      · exact absurd hc3 (List.not_mem_nil c)
  have h := drop_token_exactly_once dfW4 "A" "x" 5 7 opsW4 rfl (by decide) rfl
    (by decide) hrep
  exact ⟨h.1, h.2.1⟩
